import Mathlib

/-!
# Device inventory service (`main.go`): a shallow embedding

The program keeps a process-wide slice of devices and a set of Prometheus
instruments, and serves three kinds of request through
`manageDevicesHandler.ServeHTTP`: `GET` (list the devices as JSON), `PUT`
(set one device's firmware) and everything else (405).

The handlers of `main.go` are translated line by line (`getDevices`,
`upgradeDevice`, `ServeHTTP`). What they call in the Go library is modelled
as follows.

* Go strings are modelled by Lean strings (sequences of Unicode scalar values).
  The seed strings are ASCII and `encoding/json` only ever produces valid
  UTF-8, so every string that reaches the store is of that kind.
* `Device.ID` and the parsed path id are Go `int`s (64 bit); they are modelled by
  `Int`, and the library functions that produce them (`strconv.Atoi`,
  `strconv.ParseInt`) clamp to the 64-bit range as the library does.
* The global `devices` is assigned once, in `init`, from a composite literal of
  non-nil pointers; it is modelled by the list of the records pointed to.
* A `http.ResponseWriter` is modelled by the record `ResponseWriter`: the header
  map under construction, the status line and header as sent by the first
  `WriteHeader`, and the body bytes written so far.
* `json.NewDecoder(..).Decode` is modelled by the package's scanner, state by
  state, followed by the store into the struct; `json.Marshal` by the text the
  encoder writes for a slice of `Device`.
* The Prometheus instruments are modelled by what the handlers do to them: the
  labelled counter `upgrades` is a count per label value (a natural number), the
  histogram `duration` is the list of label pairs observed (the observed
  wall-clock value is not modelled).

The routing done by `http.ServeMux` before the handler runs, the two listeners
and the scheduling of concurrent requests are outside the model: a request is
served from start to end on the state the previous one left.
-/

namespace DeviceService

/-! ## Data model (`main.go`, lines 14-37) -/

/-- The `Device` struct of `main.go`. -/
structure Device where
  ID : Int
  Mac : String
  Firmware : String
deriving DecidableEq, Repr

/-- The slice assigned to the global `devices` by `init`. -/
def seedDevices : List Device :=
  [ { ID := 1, Mac := "5F-4G", Firmware := "2.2.0" },
    { ID := 2, Mac := "5E-4G", Firmware := "2.2.1" } ]

/-! ## `strconv` and `strings` -/

namespace strconv

/-- The two errors a `*strconv.NumError` can wrap. -/
inductive NumError where
  | ErrSyntax
  | ErrRange
deriving DecidableEq, Repr

/-- Value of a decimal digit, `none` for any other character. -/
def digitVal (c : Char) : Option Nat :=
  if 48 ≤ c.toNat ∧ c.toNat ≤ 57 then some (c.toNat - 48) else none

/-- Largest `uint64`. -/
def maxUint64 : Nat := 2 ^ 64 - 1

/-- The digit loop of `strconv.ParseUint(s, 10, 64)`: the accumulated value, or
the library's result at the first offending character (`0` with `ErrSyntax`,
`maxUint64` with `ErrRange`). -/
def parseUintLoop : List Char → Nat → Nat × Option NumError
  | [], n => (n, none)
  | c :: cs, n =>
    match digitVal c with
    | none => (0, some NumError.ErrSyntax)
    | some d =>
      if n ≥ maxUint64 / 10 + 1 then (maxUint64, some NumError.ErrRange)
      else if n * 10 + d > maxUint64 then (maxUint64, some NumError.ErrRange)
      else parseUintLoop cs (n * 10 + d)

/-- Model of `strconv.ParseUint(s, 10, 64)`. -/
def ParseUint (s : List Char) : Nat × Option NumError :=
  match s with
  | [] => (0, some NumError.ErrSyntax)
  | _ :: _ => parseUintLoop s 0

/-- Model of `strconv.ParseInt(s, 10, 64)`: an optional sign, then `ParseUint`;
a syntax error yields `0`, a range error the nearest bound of `int64`. -/
def ParseInt (s : List Char) : Int × Option NumError :=
  match s with
  | [] => (0, some NumError.ErrSyntax)
  | c :: rest =>
    let neg : Bool := c == '-'
    let digits := if c == '+' || c == '-' then rest else s
    match ParseUint digits with
    | (_, some NumError.ErrSyntax) => (0, some NumError.ErrSyntax)
    | (un, _) =>
      if !neg && decide (un ≥ 2 ^ 63) then ((2 : Int) ^ 63 - 1, some NumError.ErrRange)
      else if neg && decide (un > 2 ^ 63) then (-(2 : Int) ^ 63, some NumError.ErrRange)
      else (if neg then -(un : Int) else (un : Int), none)

/-- The digit loop of the fast path of `strconv.Atoi`. -/
def atoiDigits : List Char → Nat → Option Nat
  | [], n => some n
  | c :: cs, n =>
    match digitVal c with
    | none => none
    | some d => atoiDigits cs (n * 10 + d)

/-- Fast path of `strconv.Atoi` (strings of 1 to 18 bytes). -/
def atoiFast (s0 : List Char) : Int × Option NumError :=
  match s0 with
  | [] => (0, some NumError.ErrSyntax)
  | c :: rest =>
    let signed : Bool := c == '-' || c == '+'
    let s := if signed then rest else s0
    if signed && s.isEmpty then (0, some NumError.ErrSyntax)
    else
      match atoiDigits s 0 with
      | none => (0, some NumError.ErrSyntax)
      | some n => (if c == '-' then -(n : Int) else (n : Int), none)

/-- Model of `strconv.Atoi` on a 64-bit platform: the returned `int` and the
error (`none` is Go's `nil`). -/
def Atoi (s : String) : Int × Option NumError :=
  let sLen := s.utf8ByteSize
  if 0 < sLen ∧ sLen < 19 then atoiFast s.data else ParseInt s.data

end strconv

namespace strings

/-- Model of `strings.TrimPrefix`. -/
def TrimPrefix (s pre : String) : String :=
  if pre.data.isPrefixOf s.data then String.mk (s.data.drop pre.data.length) else s

end strings

/-! ## `net/http`: the response writer -/

/-- A header map; `Set` replaces, so a key occurs at most once. -/
abbrev Header := List (String × String)

/-- Model of `Header.Del`. -/
def Header.Del (h : Header) (key : String) : Header :=
  h.filter (fun p => p.1 != key)

/-- Model of `Header.Set` (for an already canonical key). -/
def Header.Set (h : Header) (key value : String) : Header :=
  (key, value) :: Header.Del h key

/-- Model of `Header.Get`: the value stored under `key`, if any. -/
def Header.Get (h : Header) (key : String) : Option String :=
  (h.find? (fun p => p.1 == key)).map (fun p => p.2)

/-- State of a `http.ResponseWriter` while a handler runs. `header` is the map
returned by `w.Header()`; the first `WriteHeader` fixes `status` and the header
that is sent (`sent`); `body` is what has been written. -/
structure ResponseWriter where
  header : Header
  wroteHeader : Bool
  status : Nat
  sent : Header
  body : String
deriving DecidableEq, Repr

/-- The writer a handler starts with. -/
def ResponseWriter.fresh : ResponseWriter :=
  { header := [], wroteHeader := false, status := 0, sent := [], body := "" }

/-- Model of `w.Header().Set(key, value)`. -/
def ResponseWriter.SetHeader (w : ResponseWriter) (key value : String) : ResponseWriter :=
  { w with header := Header.Set w.header key value }

/-- Model of `w.WriteHeader(code)`: the first call sends the status line and a
snapshot of the header map; a later call is superfluous and changes nothing. -/
def ResponseWriter.WriteHeader (w : ResponseWriter) (code : Nat) : ResponseWriter :=
  if w.wroteHeader then w
  else { w with wroteHeader := true, status := code, sent := w.header }

/-- Model of `w.Write(b)`: sends status 200 first if no header was written yet,
then appends to the body. -/
def ResponseWriter.Write (w : ResponseWriter) (b : String) : ResponseWriter :=
  let w1 := if w.wroteHeader then w else w.WriteHeader 200
  { w1 with body := w1.body ++ b }

namespace http

def StatusOK : Nat := 200
def StatusAccepted : Nat := 202
def StatusBadRequest : Nat := 400
def StatusNotFound : Nat := 404
def StatusMethodNotAllowed : Nat := 405
def StatusInternalServerError : Nat := 500

/-- Model of `http.Error`: sets the plain-text headers, writes the status and
prints the message followed by a newline (`fmt.Fprintln`). Recent releases
delete a few more headers than `Content-Length`; the handlers set none of
them. -/
def Error (w : ResponseWriter) (error : String) (code : Nat) : ResponseWriter :=
  let h := Header.Set (Header.Set (Header.Del w.header "Content-Length")
    "Content-Type" "text/plain; charset=utf-8") "X-Content-Type-Options" "nosniff"
  let w1 : ResponseWriter := { w with header := h }
  (w1.WriteHeader code).Write (error ++ "\n")

/-- Model of `http.NotFound`. -/
def NotFound (w : ResponseWriter) : ResponseWriter :=
  Error w "404 page not found" StatusNotFound

end http

/-! ## `encoding/json`: decoding

`json.NewDecoder(r.Body).Decode(&device)` reads the first JSON value of the
body with the package's scanner, a state machine that is fed one character
at a time and keeps a stack of the containers it is in, and then stores that
value into the struct. The model follows the scanner state by state
(`scanner.go`) and lets it build the value it has validated; whatever follows
the first value is not looked at. -/

namespace json

/-- A JSON value as read by the scanner. A number keeps its literal text, a
string is unquoted. -/
inductive Value where
  | null
  | bool (b : Bool)
  | number (lit : List Char)
  | string (s : List Char)
  | array (elems : List Value)
  | object (members : List (List Char × Value))

/-- Errors returned by `Decode`. -/
inductive DecodeError where
  | EOF
  | ErrUnexpectedEOF
  | SyntaxError (c : Char) (context : String)
  | UnmarshalTypeError (value struct field type : String)

/-- The scanner's `quoteChar`, for a character that `strconv.Quote` prints as it
is (the escapes of unprintable characters are not modelled). -/
def quoteChar (c : Char) : String :=
  if c == Char.ofNat 39 then "'\\''"
  else if c == '"' then "'\"'"
  else "'" ++ String.singleton c ++ "'"

/-- The `Error()` text of a decoding error. -/
def DecodeError.Error : DecodeError → String
  | DecodeError.EOF => "EOF"
  | DecodeError.ErrUnexpectedEOF => "unexpected EOF"
  | DecodeError.SyntaxError c context => "invalid character " ++ quoteChar c ++ " " ++ context
  | DecodeError.UnmarshalTypeError value struct field type =>
    if struct != "" || field != "" then
      "json: cannot unmarshal " ++ value ++ " into Go struct field " ++ struct ++ "." ++ field
        ++ " of type " ++ type
    else "json: cannot unmarshal " ++ value ++ " into Go value of type " ++ type

/-- An entry of the scanner's `parseState` stack, with the part of the
container built so far. -/
inductive ParseState where
  | parseObjectKey (members : List (List Char × Value)) (key : List Char)
  | parseObjectValue (members : List (List Char × Value)) (key : List Char)
  | parseArrayValue (elems : List Value)

/-- The scanner's `step` function, with the text of the token being read.
In a string, `acc` is the unquoted text so far and `hi` a `\u` escape of a high
surrogate whose partner has not been seen yet. -/
inductive StepFn where
  | stateBeginValue
  | stateBeginValueOrEmpty
  | stateBeginStringOrEmpty
  | stateBeginString
  | stateEndValue
  | stateInString (acc : List Char) (hi : Option Nat)
  | stateInStringEsc (acc : List Char) (hi : Option Nat)
  | stateInStringEscU (acc : List Char) (hi : Option Nat) (seen code : Nat)
  | stateNeg (lit : List Char)
  | state1 (lit : List Char)
  | state0 (lit : List Char)
  | stateDot (lit : List Char)
  | stateDot0 (lit : List Char)
  | stateE (lit : List Char)
  | stateESign (lit : List Char)
  | stateE0 (lit : List Char)
  | stateLiteral (v : Value) (name : String) (rest : List Char)

/-- The scanner: its step function and its stack (top first). -/
structure Scanner where
  step : StepFn
  parseState : List ParseState

/-- What feeding one character to the scanner gives. -/
inductive Outcome where
  | continue (s : Scanner)
  | done (v : Value)
  | error (e : DecodeError)

def maxNestingDepth : Nat := 10000

/-- The scanner's `isSpace`. -/
def isSpace (c : Char) : Bool :=
  c == ' ' || c == '\t' || c == '\r' || c == '\n'

def isDigit (c : Char) : Bool := decide (48 ≤ c.toNat ∧ c.toNat ≤ 57)

/-- Value of a hexadecimal digit. -/
def hexVal (c : Char) : Option Nat :=
  if 48 ≤ c.toNat ∧ c.toNat ≤ 57 then some (c.toNat - 48)
  else if 97 ≤ c.toNat ∧ c.toNat ≤ 102 then some (c.toNat - 87)
  else if 65 ≤ c.toNat ∧ c.toNat ≤ 70 then some (c.toNat - 55)
  else none

/-- The text of a key; only strings are scanned in key position. -/
def keyText : Value → List Char
  | Value.string s => s
  | _ => []

/-- A value is complete: hand it to the enclosing container, or finish if there
is none. -/
def valueEnd (v : Value) : List ParseState → Outcome
  | [] => Outcome.done v
  | ParseState.parseObjectKey ms _ :: st =>
    Outcome.continue ⟨StepFn.stateEndValue, ParseState.parseObjectKey ms (keyText v) :: st⟩
  | ParseState.parseObjectValue ms k :: st =>
    Outcome.continue ⟨StepFn.stateEndValue, ParseState.parseObjectValue (ms ++ [(k, v)]) k :: st⟩
  | ParseState.parseArrayValue es :: st =>
    Outcome.continue ⟨StepFn.stateEndValue, ParseState.parseArrayValue (es ++ [v]) :: st⟩

/-- The scanner's `pushParseState`. -/
def pushParseState (c : Char) (p : ParseState) (next : StepFn) (st : List ParseState) : Outcome :=
  if (p :: st).length ≤ maxNestingDepth then Outcome.continue ⟨next, p :: st⟩
  else Outcome.error (DecodeError.SyntaxError c "exceeded max depth")

/-- The scanner's `stateEndValue`, inside a container. -/
def stateEndValue (c : Char) (st : List ParseState) : Outcome :=
  if isSpace c then Outcome.continue ⟨StepFn.stateEndValue, st⟩
  else
    match st with
    | [] => Outcome.error (DecodeError.SyntaxError c "after top-level value")
    | ParseState.parseObjectKey ms k :: rest =>
      if c == ':' then
        Outcome.continue ⟨StepFn.stateBeginValue, ParseState.parseObjectValue ms k :: rest⟩
      else Outcome.error (DecodeError.SyntaxError c "after object key")
    | ParseState.parseObjectValue ms _ :: rest =>
      if c == ',' then
        Outcome.continue ⟨StepFn.stateBeginString, ParseState.parseObjectKey ms [] :: rest⟩
      else if c == '}' then valueEnd (Value.object ms) rest
      else Outcome.error (DecodeError.SyntaxError c "after object key:value pair")
    | ParseState.parseArrayValue es :: rest =>
      if c == ',' then Outcome.continue ⟨StepFn.stateBeginValue, st⟩
      else if c == ']' then valueEnd (Value.array es) rest
      else Outcome.error (DecodeError.SyntaxError c "after array element")

/-- The scanner's `stateBeginValue`. -/
def stateBeginValue (c : Char) (st : List ParseState) : Outcome :=
  if isSpace c then Outcome.continue ⟨StepFn.stateBeginValue, st⟩
  else if c == '{' then
    pushParseState c (ParseState.parseObjectKey [] []) StepFn.stateBeginStringOrEmpty st
  else if c == '[' then
    pushParseState c (ParseState.parseArrayValue []) StepFn.stateBeginValueOrEmpty st
  else if c == '"' then Outcome.continue ⟨StepFn.stateInString [] none, st⟩
  else if c == '-' then Outcome.continue ⟨StepFn.stateNeg [c], st⟩
  else if c == '0' then Outcome.continue ⟨StepFn.state0 [c], st⟩
  else if c == 't' then
    Outcome.continue ⟨StepFn.stateLiteral (Value.bool true) "true" ['r', 'u', 'e'], st⟩
  else if c == 'f' then
    Outcome.continue ⟨StepFn.stateLiteral (Value.bool false) "false" ['a', 'l', 's', 'e'], st⟩
  else if c == 'n' then
    Outcome.continue ⟨StepFn.stateLiteral Value.null "null" ['u', 'l', 'l'], st⟩
  else if isDigit c then Outcome.continue ⟨StepFn.state1 [c], st⟩
  else Outcome.error (DecodeError.SyntaxError c "looking for beginning of value")

/-- The scanner's `stateBeginString`. -/
def stateBeginString (c : Char) (st : List ParseState) : Outcome :=
  if isSpace c then Outcome.continue ⟨StepFn.stateBeginString, st⟩
  else if c == '"' then Outcome.continue ⟨StepFn.stateInString [] none, st⟩
  else Outcome.error (DecodeError.SyntaxError c "looking for beginning of object key string")

/-- A number literal ends before `c`: complete it and let `stateEndValue` read
`c`. At top level the value is done and `c` is not looked at. -/
def endNumber (lit : List Char) (c : Char) (st : List ParseState) : Outcome :=
  match valueEnd (Value.number lit) st with
  | Outcome.continue s => stateEndValue c s.parseState
  | o => o

/-- The replacement character U+FFFD. -/
def replacementChar : Char := Char.ofNat 0xFFFD

/-- Unquoted text once a pending high surrogate turns out to have no partner. -/
def flushSurrogate (acc : List Char) : Option Nat → List Char
  | none => acc
  | some _ => acc ++ [replacementChar]

/-- A `\uXXXX` escape with value `r` that does not follow a pending surrogate:
a high surrogate waits for its partner, a low one is replaced by U+FFFD. -/
def freshEscape (acc : List Char) (r : Nat) : List Char × Option Nat :=
  if 0xD800 ≤ r ∧ r < 0xDC00 then (acc, some r)
  else if 0xDC00 ≤ r ∧ r < 0xE000 then (acc ++ [replacementChar], none)
  else (acc ++ [Char.ofNat r], none)

/-- A complete `\uXXXX` escape with value `r`, as `unquote` decodes it
(`utf16.DecodeRune` for a surrogate pair). -/
def unicodeEscape (acc : List Char) (hi : Option Nat) (r : Nat) : List Char × Option Nat :=
  match hi with
  | none => freshEscape acc r
  | some h =>
    if 0xDC00 ≤ r ∧ r < 0xE000 then
      (acc ++ [Char.ofNat ((h - 0xD800) * 1024 + (r - 0xDC00) + 0x10000)], none)
    else freshEscape (acc ++ [replacementChar]) r

/-- The character a one-letter escape stands for. -/
def simpleEscape (c : Char) : Option Char :=
  if c == 'b' then some (Char.ofNat 8)
  else if c == 'f' then some (Char.ofNat 12)
  else if c == 'n' then some '\n'
  else if c == 'r' then some '\r'
  else if c == 't' then some '\t'
  else if c == '\\' || c == '/' || c == '"' then some c
  else none

/-- One step of the scanner on character `c`. -/
def step (s : Scanner) (c : Char) : Outcome :=
  let st := s.parseState
  match s.step with
  | StepFn.stateBeginValue => stateBeginValue c st
  | StepFn.stateBeginValueOrEmpty =>
    if isSpace c then Outcome.continue ⟨StepFn.stateBeginValueOrEmpty, st⟩
    else if c == ']' then stateEndValue c st
    else stateBeginValue c st
  | StepFn.stateBeginStringOrEmpty =>
    if isSpace c then Outcome.continue ⟨StepFn.stateBeginStringOrEmpty, st⟩
    else if c == '}' then
      match st with
      | ParseState.parseObjectKey ms k :: rest =>
        stateEndValue c (ParseState.parseObjectValue ms k :: rest)
      | _ => stateEndValue c st
    else stateBeginString c st
  | StepFn.stateBeginString => stateBeginString c st
  | StepFn.stateEndValue => stateEndValue c st
  | StepFn.stateInString acc hi =>
    if c == '"' then valueEnd (Value.string (flushSurrogate acc hi)) st
    else if c == '\\' then Outcome.continue ⟨StepFn.stateInStringEsc acc hi, st⟩
    else if c.toNat < 0x20 then Outcome.error (DecodeError.SyntaxError c "in string literal")
    else Outcome.continue ⟨StepFn.stateInString (flushSurrogate acc hi ++ [c]) none, st⟩
  | StepFn.stateInStringEsc acc hi =>
    if c == 'u' then Outcome.continue ⟨StepFn.stateInStringEscU acc hi 0 0, st⟩
    else
      match simpleEscape c with
      | some d => Outcome.continue ⟨StepFn.stateInString (flushSurrogate acc hi ++ [d]) none, st⟩
      | none => Outcome.error (DecodeError.SyntaxError c "in string escape code")
  | StepFn.stateInStringEscU acc hi seen code =>
    match hexVal c with
    | none => Outcome.error (DecodeError.SyntaxError c "in \\u hexadecimal character escape")
    | some d =>
      if seen < 3 then Outcome.continue ⟨StepFn.stateInStringEscU acc hi (seen + 1) (code * 16 + d), st⟩
      else
        let r := unicodeEscape acc hi (code * 16 + d)
        Outcome.continue ⟨StepFn.stateInString r.1 r.2, st⟩
  | StepFn.stateNeg lit =>
    if c == '0' then Outcome.continue ⟨StepFn.state0 (lit ++ [c]), st⟩
    else if isDigit c then Outcome.continue ⟨StepFn.state1 (lit ++ [c]), st⟩
    else Outcome.error (DecodeError.SyntaxError c "in numeric literal")
  | StepFn.state1 lit =>
    if isDigit c then Outcome.continue ⟨StepFn.state1 (lit ++ [c]), st⟩
    else if c == '.' then Outcome.continue ⟨StepFn.stateDot (lit ++ [c]), st⟩
    else if c == 'e' || c == 'E' then Outcome.continue ⟨StepFn.stateE (lit ++ [c]), st⟩
    else endNumber lit c st
  | StepFn.state0 lit =>
    if c == '.' then Outcome.continue ⟨StepFn.stateDot (lit ++ [c]), st⟩
    else if c == 'e' || c == 'E' then Outcome.continue ⟨StepFn.stateE (lit ++ [c]), st⟩
    else endNumber lit c st
  | StepFn.stateDot lit =>
    if isDigit c then Outcome.continue ⟨StepFn.stateDot0 (lit ++ [c]), st⟩
    else Outcome.error (DecodeError.SyntaxError c "after decimal point in numeric literal")
  | StepFn.stateDot0 lit =>
    if isDigit c then Outcome.continue ⟨StepFn.stateDot0 (lit ++ [c]), st⟩
    else if c == 'e' || c == 'E' then Outcome.continue ⟨StepFn.stateE (lit ++ [c]), st⟩
    else endNumber lit c st
  | StepFn.stateE lit =>
    if c == '+' || c == '-' then Outcome.continue ⟨StepFn.stateESign (lit ++ [c]), st⟩
    else if isDigit c then Outcome.continue ⟨StepFn.stateE0 (lit ++ [c]), st⟩
    else Outcome.error (DecodeError.SyntaxError c "in exponent of numeric literal")
  | StepFn.stateESign lit =>
    if isDigit c then Outcome.continue ⟨StepFn.stateE0 (lit ++ [c]), st⟩
    else Outcome.error (DecodeError.SyntaxError c "in exponent of numeric literal")
  | StepFn.stateE0 lit =>
    if isDigit c then Outcome.continue ⟨StepFn.stateE0 (lit ++ [c]), st⟩
    else endNumber lit c st
  | StepFn.stateLiteral v name rest =>
    match rest with
    | [] => valueEnd v st
    | e :: more =>
      if c == e then
        if more.isEmpty then valueEnd v st
        else Outcome.continue ⟨StepFn.stateLiteral v name more, st⟩
      else
        Outcome.error (DecodeError.SyntaxError c
          ("in literal " ++ name ++ " (expecting " ++ quoteChar e ++ ")"))

/-- The input ended in state `s`: a top-level number is complete (the decoder
feeds the scanner a space); otherwise `Decode` fails with `io.EOF` if nothing but
white space was read, and with `io.ErrUnexpectedEOF` if a value had begun. -/
def atEOF (s : Scanner) : Except DecodeError Value :=
  match s.parseState, s.step with
  | [], StepFn.state1 lit => Except.ok (Value.number lit)
  | [], StepFn.state0 lit => Except.ok (Value.number lit)
  | [], StepFn.stateDot0 lit => Except.ok (Value.number lit)
  | [], StepFn.stateE0 lit => Except.ok (Value.number lit)
  | [], StepFn.stateBeginValue => Except.error DecodeError.EOF
  | _, _ => Except.error DecodeError.ErrUnexpectedEOF

/-- Feed the input to the scanner until the first value is complete. -/
def scan : Scanner → List Char → Except DecodeError Value
  | s, [] => atEOF s
  | s, c :: cs =>
    match step s c with
    | Outcome.continue s1 => scan s1 cs
    | Outcome.done v => Except.ok v
    | Outcome.error e => Except.error e

/-- The decoder's `readValue`: the first JSON value of the input. -/
def readValue (input : List Char) : Except DecodeError Value :=
  scan ⟨StepFn.stateBeginValue, []⟩ input

/-- The decoder's `foldRune` on the characters that matter here: ASCII letters
fold to upper case, and the only two other characters that fold to an ASCII
letter are the Kelvin sign (to `K`) and the long s (to `S`). Every other
character folds to a non-ASCII one and is left as it is, which makes no
difference when the folded key is compared with an ASCII name. -/
def foldRune (c : Char) : Char :=
  if 97 ≤ c.toNat ∧ c.toNat ≤ 122 then Char.ofNat (c.toNat - 32)
  else if c.toNat = 0x212A then 'K'
  else if c.toNat = 0x17F then 'S'
  else c

/-- The decoder's `foldName`. -/
def foldName (key : List Char) : List Char := key.map foldRune

/-- The exported fields of `Device`, under their JSON names `id`, `mac` and
`firmware`. -/
inductive Field where
  | ID
  | Mac
  | Firmware
deriving DecidableEq, Repr

/-- The field an object key selects: the decoder matches the key exactly or,
failing that, up to case folding. The three names differ after folding, so one
comparison of folded names decides. -/
def lookupField (key : List Char) : Option Field :=
  let k := foldName key
  if k == ['I', 'D'] then some Field.ID
  else if k == ['M', 'A', 'C'] then some Field.Mac
  else if k == ['F', 'I', 'R', 'M', 'W', 'A', 'R', 'E'] then some Field.Firmware
  else none

/-- How an `UnmarshalTypeError` names the kind of a JSON value. -/
def Value.kind : Value → String
  | Value.null => "null"
  | Value.bool _ => "bool"
  | Value.number _ => "number"
  | Value.string _ => "string"
  | Value.array _ => "array"
  | Value.object _ => "object"

/-- Store a JSON value into the `int` field `ID`: `null` leaves it alone, a
number must pass `strconv.ParseInt(lit, 10, 64)`, anything else is a type
error. -/
def storeID (v : Value) (d : Device) : Device × Option DecodeError :=
  match v with
  | Value.null => (d, none)
  | Value.number lit =>
    match strconv.ParseInt lit with
    | (n, none) => ({ d with ID := n }, none)
    | (_, some _) =>
      (d, some (DecodeError.UnmarshalTypeError ("number " ++ String.mk lit) "Device" "id" "int"))
  | other => (d, some (DecodeError.UnmarshalTypeError other.kind "Device" "id" "int"))

/-- Store a JSON value into one of the `string` fields: `null` leaves it alone,
a string is assigned, anything else is a type error. -/
def storeString (name : String) (set : Device → String → Device) (v : Value) (d : Device) :
    Device × Option DecodeError :=
  match v with
  | Value.null => (d, none)
  | Value.string s => (set d (String.mk s), none)
  | other => (d, some (DecodeError.UnmarshalTypeError other.kind "Device" name "string"))

/-- Store the value of one object member. A key that selects no field is
skipped. -/
def storeMember (kv : List Char × Value) (d : Device) : Device × Option DecodeError :=
  match lookupField kv.1 with
  | none => (d, none)
  | some Field.ID => storeID kv.2 d
  | some Field.Mac => storeString "mac" (fun d s => { d with Mac := s }) kv.2 d
  | some Field.Firmware => storeString "firmware" (fun d s => { d with Firmware := s }) kv.2 d

/-- The members of an object are stored in the order they are written; the
first type error is saved and decoding goes on. -/
def storeMembers : List (List Char × Value) → Device × Option DecodeError →
    Device × Option DecodeError
  | [], acc => acc
  | kv :: rest, (d, saved) =>
    let r := storeMember kv d
    storeMembers rest (r.1, if saved.isSome then saved else r.2)

/-- The decoder's `unmarshal` into a `*Device`: an object is stored member by
member, `null` changes nothing, any other value is a type error. A saved error
is returned at the end. -/
def unmarshal (v : Value) (d : Device) : Except DecodeError Device :=
  match v with
  | Value.object ms =>
    match storeMembers ms (d, none) with
    | (d1, none) => Except.ok d1
    | (_, some e) => Except.error e
  | Value.null => Except.ok d
  | other => Except.error (DecodeError.UnmarshalTypeError other.kind "" "" "main.Device")

/-- The zero value of `Device` (`var device Device`). -/
def zeroDevice : Device := { ID := 0, Mac := "", Firmware := "" }

/-- Model of `json.NewDecoder(body).Decode(&device)` for a zero `device`: the
decoded struct, or the error. -/
def Decode (body : String) : Except DecodeError Device :=
  match readValue body.data with
  | Except.error e => Except.error e
  | Except.ok v => unmarshal v zeroDevice

/-! ## `encoding/json`: encoding -/

/-- Lower-case hexadecimal digit (`hex[n]`). -/
def hexDigit (n : Nat) : Char :=
  if n < 10 then Char.ofNat (48 + n) else Char.ofNat (87 + n)

/-- The encoder's `htmlSafeSet`: the ASCII characters written as they are. -/
def htmlSafe (c : Char) : Bool :=
  decide (0x20 ≤ c.toNat) && c != '"' && c != '&' && c != '<' && c != '>' && c != '\\'

/-- How the encoder writes one character of a string (`appendString` with HTML
escaping, which `Marshal` turns on). Backspace and form feed are written `\b` and
`\f` as the current encoder does; older releases wrote them `\u0008` and
`\u000c`, which the decoder reads back as well. -/
def encodeChar (c : Char) : List Char :=
  if c.toNat < 0x80 then
    if htmlSafe c then [c]
    else if c == '\\' || c == '"' then ['\\', c]
    else if c.toNat = 8 then ['\\', 'b']
    else if c.toNat = 12 then ['\\', 'f']
    else if c == '\n' then ['\\', 'n']
    else if c == '\r' then ['\\', 'r']
    else if c == '\t' then ['\\', 't']
    else ['\\', 'u', '0', '0', hexDigit (c.toNat / 16), hexDigit (c.toNat % 16)]
  else if c.toNat = 0x2028 ∨ c.toNat = 0x2029 then
    ['\\', 'u', '2', '0', '2', hexDigit (c.toNat % 16)]
  else [c]

/-- The encoder's string encoding. -/
def encodeString (s : String) : List Char :=
  '"' :: (s.data.flatMap encodeChar ++ ['"'])

/-- One decimal digit. -/
def digitChar (n : Nat) : Char := Char.ofNat (48 + n)

/-- The digits of `n`, most significant first, in front of `acc`. The first
argument bounds the number of digits. -/
def formatBits : Nat → Nat → List Char → List Char
  | 0, _, acc => acc
  | fuel + 1, n, acc =>
    if n < 10 then digitChar n :: acc
    else formatBits fuel (n / 10) (digitChar (n % 10) :: acc)

/-- Model of `strconv.FormatInt(i, 10)`. -/
def FormatInt (i : Int) : List Char :=
  if i < 0 then '-' :: formatBits (i.natAbs + 1) i.natAbs []
  else formatBits (i.natAbs + 1) i.natAbs []

/-- The encoding of one `Device`, fields in declaration order. -/
def encodeDevice (d : Device) : List Char :=
  "\x7b\"id\":".data ++ FormatInt d.ID ++ ",\"mac\":".data ++ encodeString d.Mac
    ++ ",\"firmware\":".data ++ encodeString d.Firmware ++ ['}']

/-- The elements of an array, separated by commas. -/
def encodeElems : List Device → List Char
  | [] => []
  | [d] => encodeDevice d
  | d :: rest => encodeDevice d ++ ',' :: encodeElems rest

/-- Model of `json.Marshal(devices)` for the non-nil slice `devices`. It has no
failing case: a struct of an `int` and two strings always encodes. -/
def Marshal (ds : List Device) : Except String String :=
  Except.ok (String.mk ('[' :: (encodeElems ds ++ [']'])))

end json

/-! ## The handlers (`main.go`, lines 104-162) -/

/-- The instruments of `metrics` that the handlers touch. -/
structure Metrics where
  upgrades : String → Nat
  duration : List (String × String)

/-- Model of `m.upgrades.With(prometheus.Labels\x7b"type": t\x7d).Inc()`. -/
def Metrics.incUpgrades (m : Metrics) (t : String) : Metrics :=
  { m with upgrades := fun l => if l = t then m.upgrades l + 1 else m.upgrades l }

/-- Model of `m.duration.With(labels).Observe(..)`: one more observation under
the labels `method`, `status`. -/
def Metrics.observeDuration (m : Metrics) (method status : String) : Metrics :=
  { m with duration := m.duration ++ [(method, status)] }

/-- The state the handlers share: the global `devices` and the instruments. -/
structure State where
  devices : List Device
  metrics : Metrics

/-- The part of a `*http.Request` the handlers read. -/
structure Request where
  Method : String
  Path : String
  Body : String
deriving DecidableEq, Repr

/-- The state after `init` and the registration in `main`. -/
def initState : State :=
  { devices := seedDevices, metrics := { upgrades := fun _ => 0, duration := [] } }

/-- Model of `getDevices` (lines 104-120). -/
def getDevices (w : ResponseWriter) (s : State) : ResponseWriter × State :=
  match json.Marshal s.devices with
  | Except.error err => (http.Error w err http.StatusInternalServerError, s)
  | Except.ok b =>
    let s1 : State := { s with metrics := s.metrics.observeDuration "GET" "200" }
    let w1 := w.SetHeader "Content-Type" "application/json"
    let w2 := w1.WriteHeader http.StatusOK
    (w2.Write b, s1)

/-- The loop of `upgradeDevice` (lines 136-140): every record whose `ID` is `id`
gets the new firmware. -/
def setFirmware (id : Int) (firmware : String) (ds : List Device) : List Device :=
  ds.map (fun d => if d.ID = id then { d with Firmware := firmware } else d)

/-- Model of `upgradeDevice` (lines 122-146). After `http.NotFound` the function
does not return: it goes on with the `id` that `Atoi` gave. -/
def upgradeDevice (w : ResponseWriter) (r : Request) (s : State) : ResponseWriter × State :=
  let path := strings.TrimPrefix r.Path "/metrics/devices/"
  let (id, err) := strconv.Atoi path
  let w1 := if err.isSome || decide (id < 1) then http.NotFound w else w
  match json.Decode r.Body with
  | Except.error e => (http.Error w1 e.Error http.StatusBadRequest, s)
  | Except.ok device =>
    let s1 : State :=
      { devices := setFirmware id device.Firmware s.devices,
        metrics := s.metrics.incUpgrades "router" }
    let w2 := w1.WriteHeader http.StatusAccepted
    (w2.Write "upgrading", s1)

/-- Model of `manageDevicesHandler.ServeHTTP` (lines 152-162), run on a fresh
response writer: the response and the state it leaves. -/
def ServeHTTP (s : State) (r : Request) : ResponseWriter × State :=
  let w := ResponseWriter.fresh
  if r.Method = "GET" then getDevices w s
  else if r.Method = "PUT" then upgradeDevice w r s
  else
    let w1 := w.SetHeader "Allow" "PUT"
    (http.Error w1 "method not allowed" http.StatusMethodNotAllowed, s)

/-- The state after serving the requests one after the other. -/
def serveAll : State → List Request → State
  | s, [] => s
  | s, r :: rs => serveAll (ServeHTTP s r).2 rs

/-! ## Notions used to state the properties -/

/-- The path suffix after `/metrics/devices/` parses as a positive integer: `Atoi`
reports no error and the id is at least 1 (the negation of the test on line 126). -/
def parsesPositive (r : Request) : Bool :=
  let p := strconv.Atoi (strings.TrimPrefix r.Path "/metrics/devices/")
  p.2.isNone && decide (1 ≤ p.1)

/-- The id `upgradeDevice` works with: what `Atoi` returned for the path suffix. -/
def pathID (r : Request) : Int :=
  (strconv.Atoi (strings.TrimPrefix r.Path "/metrics/devices/")).1

/-- The writer `upgradeDevice` goes on with after the test on line 126. -/
def afterPathCheck (w : ResponseWriter) (r : Request) : ResponseWriter :=
  if parsesPositive r then w else http.NotFound w

/-- Number of `PUT` requests in a sequence. -/
def countPut (rs : List Request) : Nat :=
  rs.countP (fun r => r.Method == "PUT")

/-- Every `PUT` request of the sequence, served in turn from state `s`, is
answered 202. -/
def allPutsAccepted : State → List Request → Bool
  | _, [] => true
  | s, r :: rs =>
    (r.Method != "PUT" || (ServeHTTP s r).1.status == http.StatusAccepted)
      && allPutsAccepted (ServeHTTP s r).2 rs

/-- The response reports an error: its status is 4xx or 5xx. -/
def isErrorStatus (code : Nat) : Bool := decide (400 ≤ code ∧ code < 600)

/-- The request `PUT /metrics/devices/1` with body `\x7b"firmware":"2.3.0"\x7d`. -/
def putFirmware1 : Request :=
  { Method := "PUT", Path := "/metrics/devices/1", Body := "\x7b\"firmware\":\"2.3.0\"\x7d" }

/-- The request `PUT /metrics/devices/7` with body `\x7b"firmware":"2.3.0"\x7d`. -/
def putFirmware7 : Request :=
  { Method := "PUT", Path := "/metrics/devices/7", Body := "\x7b\"firmware\":\"2.3.0\"\x7d" }

/-- The request `PUT /metrics/devices/abc` with body `not-json`. -/
def putBadPathBadBody : Request :=
  { Method := "PUT", Path := "/metrics/devices/abc", Body := "not-json" }

/-- The request `PUT /metrics/devices/abc` with body `\x7b"firmware":"9.9.9"\x7d`. -/
def putBadPath : Request :=
  { Method := "PUT", Path := "/metrics/devices/abc", Body := "\x7b\"firmware\":\"9.9.9\"\x7d" }

/-- The request `PUT /metrics/devices/1` with body `not-json`. -/
def putBadBody : Request :=
  { Method := "PUT", Path := "/metrics/devices/1", Body := "not-json" }

/-- The request `POST /metrics/devices`. -/
def postDevices : Request :=
  { Method := "POST", Path := "/metrics/devices", Body := "" }

/-- The request `GET /metrics/devices`. -/
def getRequest : Request :=
  { Method := "GET", Path := "/metrics/devices", Body := "" }

/-- The request `PUT /metrics/devices/1` with body `\x7b"id":"x"\x7d`: a JSON object
without a `firmware` member whose `id` member is a string. -/
def putStringID : Request :=
  { Method := "PUT", Path := "/metrics/devices/1", Body := "\x7b\"id\":\"x\"\x7d" }

/-- The request `PUT /metrics/devices/1` with body `\x7b\x7d`. -/
def putEmptyObject : Request :=
  { Method := "PUT", Path := "/metrics/devices/1", Body := "\x7b\x7d" }

namespace json

/-- The states in which a value can only end before the character being read:
the four in which a number literal is complete. (Strings, literals and
containers end with their last character.) -/
def endsBefore : StepFn → Bool
  | StepFn.state1 _ => true
  | StepFn.state0 _ => true
  | StepFn.stateDot0 _ => true
  | StepFn.stateE0 _ => true
  | _ => false

/-- The scanner run as in `scan`, returning with the first value the input that
is left after it. A number ends before the character that terminates it, so
that character is part of what is left. -/
def scanRest : Scanner → List Char → Except DecodeError (Value × List Char)
  | s, [] =>
    match atEOF s with
    | Except.ok v => Except.ok (v, [])
    | Except.error e => Except.error e
  | s, c :: cs =>
    match step s c with
    | Outcome.continue s1 => scanRest s1 cs
    | Outcome.done v => Except.ok (v, if endsBefore s.step then c :: cs else cs)
    | Outcome.error e => Except.error e

/-- The first JSON value of the input and the input left after it. -/
def readValueRest (input : List Char) : Except DecodeError (Value × List Char) :=
  scanRest ⟨StepFn.stateBeginValue, []⟩ input

/-- The input as one JSON document, which is what `json.Valid` and
`json.Unmarshal` accept: one value, then nothing but white space. After the
value the scanner is in `stateEndTop`, where any other character is the error
`after top-level value`. (For an input that ends inside a value the error
returned here is the decoder's; `Unmarshal` words it differently. Which inputs
are accepted, and with what value, does not depend on that.) -/
def readDocument (input : List Char) : Except DecodeError Value :=
  match readValueRest input with
  | Except.error e => Except.error e
  | Except.ok (v, rest) =>
    match rest.find? (fun c => !isSpace c) with
    | none => Except.ok v
    | some c => Except.error (DecodeError.SyntaxError c "after top-level value")

/-- How `scanRest` goes on after a step: with the remaining input `rest`, or not
at all once the value is done (`left` is then the input left) or an error is
found. -/
def resumeRest (o : Outcome) (left rest : List Char) : Except DecodeError (Value × List Char) :=
  match o with
  | Outcome.continue s1 => scanRest s1 rest
  | Outcome.done v => Except.ok (v, left)
  | Outcome.error e => Except.error e

/-- What `ParseUint` computes from a run of digits. -/
def digitsValue (ds : List Char) (a : Nat) : Nat :=
  ds.foldl (fun n c => n * 10 + (c.toNat - 48)) a

/-- The JSON value the encoder writes for a device. -/
def deviceValue (d : Device) : Value :=
  Value.object
    [ (['i', 'd'], Value.number (FormatInt d.ID)),
      (['m', 'a', 'c'], Value.string d.Mac.data),
      (['f', 'i', 'r', 'm', 'w', 'a', 'r', 'e'], Value.string d.Firmware.data) ]

end json

/-! ## The encoder and the decoder agree

What `Marshal` writes for a slice of devices, the decoder's scanner reads as the
array of the devices' values, and each value is stored back into the device it
came from. -/

namespace json

/-- Scanning a non-empty input is one step, then the rest. -/
theorem scanRest_cons (s : Scanner) (c : Char) (cs : List Char) :
    scanRest s (c :: cs)
      = resumeRest (step s c) (if endsBefore s.step then c :: cs else cs) cs := by
  simp only [scanRest, resumeRest]

theorem resumeRest_continue (s : Scanner) (left rest : List Char) :
    resumeRest (Outcome.continue s) left rest = scanRest s rest := rfl

/-- `scan` returns the value that `scanRest` returns. -/
theorem scan_eq_scanRest (cs : List Char) (s : Scanner) :
    scan s cs = (scanRest s cs).map Prod.fst := by
  induction cs generalizing s with
  | nil =>
    simp only [scan, scanRest]
    cases atEOF s <;> rfl
  | cons c rest ih =>
    simp only [scan, scanRest]
    cases step s c <;> first | rfl | exact ih _

/-- A character is determined by its code point. -/
theorem char_eq_of_toNat (c : Char) (n : Nat) (h : c.toNat = n) : c = Char.ofNat n := by
  rw [← h, Char.ofNat_toNat]

theorem char_ne_of_toNat_ne (c d : Char) (h : c.toNat ≠ d.toNat) : (c == d) = false := by
  rw [beq_eq_false_iff_ne]
  intro hcd
  exact h (by rw [hcd])

theorem beq_false_of_toNat (c d : Char) (n : Nat) (hd : d.toNat = n) (h : c.toNat ≠ n) :
    (c == d) = false :=
  char_ne_of_toNat_ne c d (by rw [hd]; exact h)

theorem beq_eq_decide_toNat (c d : Char) : (c == d) = decide (c.toNat = d.toNat) := by
  by_cases h : c = d
  · subst h; simp
  · have : c.toNat ≠ d.toNat := by
      intro hn
      apply h
      rw [← Char.ofNat_toNat c, ← Char.ofNat_toNat d, hn]
    simp [h, this]

theorem bne_eq_decide_toNat (c d : Char) : (c != d) = decide (c.toNat ≠ d.toNat) := by
  simp [bne, beq_eq_decide_toNat]

/-- `hexVal` reads back the digit written by `hexDigit`. -/
theorem hexVal_hexDigit : ∀ k, k < 16 → hexVal (hexDigit k) = some k := by
  decide

/-- A character that needs no escape is appended to the text. -/
theorem step_plain (acc : List Char) (st : List ParseState) (c : Char)
    (h1 : c.toNat ≠ 34) (h2 : c.toNat ≠ 92) (h3 : 32 ≤ c.toNat) :
    step ⟨StepFn.stateInString acc none, st⟩ c
      = Outcome.continue ⟨StepFn.stateInString (acc ++ [c]) none, st⟩ := by
  have e1 : (c == '"') = false := char_ne_of_toNat_ne _ _ h1
  have e2 : (c == '\\') = false := char_ne_of_toNat_ne _ _ h2
  have e3 : ¬ c.toNat < 32 := by omega
  simp [step, e1, e2, e3, flushSurrogate]

/-- A one-letter escape is replaced by the character it stands for. -/
theorem scan_simpleEscape (acc : List Char) (st : List ParseState) (e d : Char)
    (tail : List Char) (hu : (e == 'u') = false) (hd : simpleEscape e = some d) :
    scanRest ⟨StepFn.stateInString acc none, st⟩ ('\\' :: e :: tail)
      = scanRest ⟨StepFn.stateInString (acc ++ [d]) none, st⟩ tail := by
  simp [scanRest_cons, endsBefore, resumeRest, step, hu, hd, flushSurrogate]

/-- A `\u` escape of four hexadecimal digits is decoded to its value. -/
theorem scan_unicodeEscape (acc : List Char) (st : List ParseState) (a b c d : Char)
    (va vb vc vd : Nat) (tail : List Char)
    (ha : hexVal a = some va) (hb : hexVal b = some vb) (hc : hexVal c = some vc)
    (hd : hexVal d = some vd) :
    scanRest ⟨StepFn.stateInString acc none, st⟩ ('\\' :: 'u' :: a :: b :: c :: d :: tail)
      = scanRest ⟨StepFn.stateInString
          (unicodeEscape acc none (((va * 16 + vb) * 16 + vc) * 16 + vd)).1
          (unicodeEscape acc none (((va * 16 + vb) * 16 + vc) * 16 + vd)).2, st⟩ tail := by
  simp [scanRest_cons, endsBefore, resumeRest, step, ha, hb, hc, hd]

/-- The decoder reads back the character that the encoder wrote, whichever of
its escapes the encoder chose. -/
theorem scan_encodeChar (c : Char) (acc : List Char) (st : List ParseState) (tail : List Char) :
    scanRest ⟨StepFn.stateInString acc none, st⟩ (encodeChar c ++ tail)
      = scanRest ⟨StepFn.stateInString (acc ++ [c]) none, st⟩ tail := by
  unfold encodeChar
  simp only [htmlSafe, beq_eq_decide_toNat, bne_eq_decide_toNat, Char.reduceToNat,
    Bool.and_eq_true, Bool.or_eq_true, decide_eq_true_eq]
  split_ifs with h1 h2 h3 h4 h5 h6 h7 h8 h9
  · -- written as it is
    simp only [List.singleton_append, scanRest_cons, endsBefore]
    rw [step_plain acc st c (by omega) (by omega) (by omega)]
    rfl
  · -- backslash or quote
    have hu : (c == 'u') = false := by
      rw [beq_eq_decide_toNat]; simp only [Char.reduceToNat]
      rcases h3 with h | h <;> simp [h]
    have hd : simpleEscape c = some c := by
      rcases h3 with h | h
      · rw [char_eq_of_toNat c _ h]; decide
      · rw [char_eq_of_toNat c _ h]; decide
    exact scan_simpleEscape acc st c c tail hu hd
  · rw [char_eq_of_toNat c _ h4]
    exact scan_simpleEscape acc st 'b' _ tail (by decide) (by decide)
  · rw [char_eq_of_toNat c _ h5]
    exact scan_simpleEscape acc st 'f' _ tail (by decide) (by decide)
  · rw [char_eq_of_toNat c _ h6]
    exact scan_simpleEscape acc st 'n' _ tail (by decide) (by decide)
  · rw [char_eq_of_toNat c _ h7]
    exact scan_simpleEscape acc st 'r' _ tail (by decide) (by decide)
  · rw [char_eq_of_toNat c _ h8]
    exact scan_simpleEscape acc st 't' _ tail (by decide) (by decide)
  · -- a control character or one of the HTML characters
    have e := scan_unicodeEscape acc st '0' '0' (hexDigit (c.toNat / 16))
      (hexDigit (c.toNat % 16)) 0 0 (c.toNat / 16) (c.toNat % 16) tail (by decide) (by decide)
      (hexVal_hexDigit _ (by omega)) (hexVal_hexDigit _ (by omega))
    have hv : ((0 * 16 + 0) * 16 + c.toNat / 16) * 16 + c.toNat % 16 = c.toNat := by omega
    rw [hv] at e
    have hf : unicodeEscape acc none c.toNat = (acc ++ [c], none) := by
      simp only [unicodeEscape, freshEscape]
      rw [if_neg (by omega), if_neg (by omega), Char.ofNat_toNat]
    rw [hf] at e
    exact e
  · -- the line and paragraph separators
    have e := scan_unicodeEscape acc st '2' '0' '2'
      (hexDigit (c.toNat % 16)) 2 0 2 (c.toNat % 16) tail (by decide) (by decide)
      (by decide) (hexVal_hexDigit _ (by omega))
    have hv : ((2 * 16 + 0) * 16 + 2) * 16 + c.toNat % 16 = c.toNat := by omega
    rw [hv] at e
    have hf : unicodeEscape acc none c.toNat = (acc ++ [c], none) := by
      simp only [unicodeEscape, freshEscape]
      rw [if_neg (by omega), if_neg (by omega), Char.ofNat_toNat]
    rw [hf] at e
    exact e
  · simp only [List.singleton_append, scanRest_cons, endsBefore]
    rw [step_plain acc st c (by omega) (by omega) (by omega)]
    rfl

/-- The decoder reads back the text of a string that the encoder wrote. -/
theorem scan_encodeString_body (cs acc : List Char) (st : List ParseState) (tail : List Char) :
    scanRest ⟨StepFn.stateInString acc none, st⟩ (cs.flatMap encodeChar ++ '"' :: tail)
      = resumeRest (valueEnd (Value.string (acc ++ cs)) st) tail tail := by
  induction cs generalizing acc with
  | nil =>
    simp [scanRest_cons, endsBefore, step, flushSurrogate]
  | cons c rest ih =>
    rw [List.flatMap_cons, List.append_assoc, scan_encodeChar, ih]
    simp

theorem digitChar_toNat : ∀ k, k < 10 → (digitChar k).toNat = 48 + k := by
  decide

theorem digitVal_digitChar (k : Nat) (h : k < 10) : strconv.digitVal (digitChar k) = some k := by
  simp only [strconv.digitVal, digitChar_toNat k h]
  rw [if_pos (by omega)]
  congr 1
  omega

theorem digitsValue_append (ds : List Char) (c : Char) (a : Nat) :
    digitsValue (ds ++ [c]) a = digitsValue ds a * 10 + (c.toNat - 48) := by
  simp [digitsValue, List.foldl_append]

/-- The digits written for `n`: only decimal digits, at least one, with value
`n`, and no leading zero except for `0` itself. -/
theorem formatBits_spec (fuel : Nat) : ∀ (n : Nat) (acc : List Char), n < fuel →
    ∃ ds, formatBits fuel n acc = ds ++ acc ∧
      (∀ c ∈ ds, ∃ k, k < 10 ∧ c = digitChar k) ∧
      (∀ a, digitsValue ds a = a * 10 ^ ds.length + n) ∧
      (∃ k t, ds = digitChar k :: t ∧ k < 10 ∧ (k = 0 → t = [] ∧ n = 0)) := by
  induction fuel with
  | zero => intro n acc h; omega
  | succ fuel ih =>
    intro n acc h
    by_cases h10 : n < 10
    · refine ⟨[digitChar n], by simp [formatBits, h10], ?_, ?_, ?_⟩
      · intro c hc
        exact ⟨n, h10, by simpa using hc⟩
      · intro a
        simp [digitsValue, digitChar_toNat n h10]
      · exact ⟨n, [], rfl, h10, fun h0 => ⟨rfl, h0⟩⟩
    · obtain ⟨ds, h1, h2, h3, k, t, h4, h5, h6⟩ :=
        ih (n / 10) (digitChar (n % 10) :: acc) (by omega)
      refine ⟨ds ++ [digitChar (n % 10)], by simp [formatBits, h10, h1], ?_, ?_, ?_⟩
      · intro c hc
        rcases List.mem_append.mp hc with hc | hc
        · exact h2 c hc
        · exact ⟨n % 10, by omega, by simpa using hc⟩
      · intro a
        rw [digitsValue_append, h3 a, digitChar_toNat _ (by omega : n % 10 < 10)]
        simp only [List.length_append, List.length_singleton, pow_succ]
        have : 48 + n % 10 - 48 = n % 10 := by omega
        rw [this]
        have hn : n / 10 * 10 + n % 10 = n := by omega
        calc (a * 10 ^ ds.length + n / 10) * 10 + n % 10
            = a * 10 ^ ds.length * 10 + (n / 10 * 10 + n % 10) := by ring
          _ = a * 10 ^ ds.length * 10 + n := by rw [hn]
          _ = a * (10 ^ ds.length * 10) + n := by ring
      · refine ⟨k, t ++ [digitChar (n % 10)], by simp [h4], h5, ?_⟩
        intro hk
        have := (h6 hk).2
        omega

theorem le_digitsValue (ds : List Char) (a : Nat) : a ≤ digitsValue ds a := by
  induction ds generalizing a with
  | nil => exact Nat.le_refl _
  | cons c rest ih =>
    have := ih (a * 10 + (c.toNat - 48))
    simp only [digitsValue, List.foldl_cons] at this ⊢
    omega

/-- On a run of digits whose value fits `uint64`, `ParseUint` returns the value. -/
theorem parseUintLoop_digits (ds : List Char) (a : Nat)
    (hd : ∀ c ∈ ds, ∃ k, k < 10 ∧ c = digitChar k)
    (hv : digitsValue ds a ≤ strconv.maxUint64) :
    strconv.parseUintLoop ds a = (digitsValue ds a, none) := by
  induction ds generalizing a with
  | nil => rfl
  | cons c rest ih =>
    obtain ⟨k, hk, rfl⟩ := hd c (List.mem_cons_self _ _)
    have hstep : digitsValue (digitChar k :: rest) a = digitsValue rest (a * 10 + k) := by
      simp only [digitsValue, List.foldl_cons, digitChar_toNat k hk]
      congr 1
      omega
    rw [hstep] at hv ⊢
    have hle := le_digitsValue rest (a * 10 + k)
    have hmax : strconv.maxUint64 = 18446744073709551615 := by decide
    rw [hmax] at hv
    simp only [strconv.parseUintLoop, digitVal_digitChar k hk, hmax]
    rw [if_neg (by omega), if_neg (by omega)]
    exact ih (a * 10 + k) (fun c hc => hd c (List.mem_cons_of_mem _ hc)) (by rw [hmax]; exact hv)

theorem ParseUint_digits (ds : List Char) (n : Nat)
    (hne : ds ≠ []) (hd : ∀ c ∈ ds, ∃ k, k < 10 ∧ c = digitChar k)
    (hv : ∀ a, digitsValue ds a = a * 10 ^ ds.length + n) (hn : n ≤ strconv.maxUint64) :
    strconv.ParseUint ds = (n, none) := by
  have h0 : digitsValue ds 0 = n := by rw [hv 0]; simp
  cases ds with
  | nil => exact absurd rfl hne
  | cons c rest =>
    simp only [strconv.ParseUint]
    rw [parseUintLoop_digits _ 0 hd (by rw [h0]; exact hn), h0]

/-- `ParseInt` reads back the `int` that `FormatInt` wrote. -/
theorem ParseInt_FormatInt (i : Int) (hlo : -(2 : Int) ^ 63 ≤ i) (hhi : i < (2 : Int) ^ 63) :
    strconv.ParseInt (FormatInt i) = (i, none) := by
  obtain ⟨ds, h1, h2, h3, k, t, h4, h5, _⟩ :=
    formatBits_spec (i.natAbs + 1) i.natAbs [] (by omega)
  rw [List.append_nil] at h1
  have hmax : strconv.maxUint64 = 18446744073709551615 := by decide
  have hne : ds ≠ [] := by rw [h4]; simp
  have hparse : strconv.ParseUint ds = (i.natAbs, none) :=
    ParseUint_digits ds i.natAbs hne h2 h3 (by rw [hmax]; omega)
  by_cases hneg : i < 0
  · have hf : FormatInt i = '-' :: ds := by simp [FormatInt, hneg, h1]
    rw [hf]
    simp only [strconv.ParseInt]
    have hb : ('-' == '-') = true := by decide
    simp only [hb, Bool.or_true, if_true, hparse]
    have h63 : ¬ (i.natAbs > 2 ^ 63) := by omega
    simp only [Bool.not_true, Bool.false_and, Bool.true_and, decide_eq_true_eq, h63,
      if_false, Bool.false_eq_true]
    have hi : -(i.natAbs : Int) = i := by omega
    rw [hi]
  · have hf : FormatInt i = digitChar k :: t := by simp [FormatInt, hneg, h1, h4]
    rw [hf]
    simp only [strconv.ParseInt]
    have hb : (digitChar k == '-') = false := by
      rw [beq_eq_decide_toNat, digitChar_toNat k h5]; simp only [Char.reduceToNat]
      exact decide_eq_false (by omega)
    have hc : (digitChar k == '+') = false := by
      rw [beq_eq_decide_toNat, digitChar_toNat k h5]; simp only [Char.reduceToNat]
      exact decide_eq_false (by omega)
    rw [← h4] 
    simp only [hb, hc, Bool.or_false, Bool.false_eq_true, if_false, hparse]
    have h63 : ¬ (i.natAbs ≥ 2 ^ 63) := by omega
    simp only [Bool.not_false, Bool.true_and, Bool.false_and, decide_eq_true_eq, h63,
      if_false, Bool.false_eq_true]
    have hi : (i.natAbs : Int) = i := by omega
    rw [hi]

theorem stateBeginValue_digit (c : Char) (st : List ParseState)
    (h1 : 49 ≤ c.toNat) (h2 : c.toNat ≤ 57) :
    stateBeginValue c st = Outcome.continue ⟨StepFn.state1 [c], st⟩ := by
  have e1 : (c == ' ') = false := beq_false_of_toNat c _ 32 rfl (by omega)
  have e2 : (c == '\t') = false := beq_false_of_toNat c _ 9 rfl (by omega)
  have e3 : (c == '\r') = false := beq_false_of_toNat c _ 13 rfl (by omega)
  have e4 : (c == '\n') = false := beq_false_of_toNat c _ 10 rfl (by omega)
  have e5 : (c == '{') = false := beq_false_of_toNat c _ 123 rfl (by omega)
  have e6 : (c == '[') = false := beq_false_of_toNat c _ 91 rfl (by omega)
  have e7 : (c == '"') = false := beq_false_of_toNat c _ 34 rfl (by omega)
  have e8 : (c == '-') = false := beq_false_of_toNat c _ 45 rfl (by omega)
  have e9 : (c == '0') = false := beq_false_of_toNat c _ 48 rfl (by omega)
  have e10 : (c == 't') = false := beq_false_of_toNat c _ 116 rfl (by omega)
  have e11 : (c == 'f') = false := beq_false_of_toNat c _ 102 rfl (by omega)
  have e12 : (c == 'n') = false := beq_false_of_toNat c _ 110 rfl (by omega)
  have e13 : isDigit c = true := by
    simp only [isDigit, decide_eq_true_eq]; omega
  simp only [stateBeginValue, isSpace, e1, e2, e3, e4, e5, e6, e7, e8, e9, e10, e11, e12, e13,
    Bool.or_false, Bool.false_eq_true, if_false, if_true]

theorem step_state1_digit (lit : List Char) (st : List ParseState) (c : Char)
    (h1 : 48 ≤ c.toNat) (h2 : c.toNat ≤ 57) :
    step ⟨StepFn.state1 lit, st⟩ c = Outcome.continue ⟨StepFn.state1 (lit ++ [c]), st⟩ := by
  simp only [step, isDigit, decide_eq_true_eq]
  rw [if_pos ⟨h1, h2⟩]

theorem step_stateNeg_digit (lit : List Char) (st : List ParseState) (c : Char)
    (h1 : 49 ≤ c.toNat) (h2 : c.toNat ≤ 57) :
    step ⟨StepFn.stateNeg lit, st⟩ c = Outcome.continue ⟨StepFn.state1 (lit ++ [c]), st⟩ := by
  simp only [step, isDigit, beq_eq_decide_toNat, Char.reduceToNat, decide_eq_true_eq]
  rw [if_neg (by omega), if_pos ⟨by omega, h2⟩]

/-- In `state1` the scanner takes the digits up to the comma into the literal. -/
theorem scan_state1_digits (ds lit : List Char) (st : List ParseState) (tail : List Char)
    (hd : ∀ c ∈ ds, ∃ k, k < 10 ∧ c = digitChar k) :
    scanRest ⟨StepFn.state1 lit, st⟩ (ds ++ ',' :: tail)
      = resumeRest (endNumber (lit ++ ds) ',' st) (',' :: tail) tail := by
  induction ds generalizing lit with
  | nil =>
    rw [List.nil_append, scanRest_cons, List.append_nil]
    congr 1
  | cons c rest ih =>
    obtain ⟨k, hk, rfl⟩ := hd c (List.mem_cons_self _ _)
    have ht := digitChar_toNat k hk
    rw [List.cons_append, scanRest_cons, step_state1_digit lit st _ (by omega) (by omega),
      resumeRest_continue, ih _ (fun c hc => hd c (List.mem_cons_of_mem _ hc))]
    simp

/-- The scanner reads the text written by `FormatInt`, up to a comma, as one
number literal. -/
theorem scan_FormatInt (i : Int) (st : List ParseState) (tail : List Char) :
    scanRest ⟨StepFn.stateBeginValue, st⟩ (FormatInt i ++ ',' :: tail)
      = resumeRest (endNumber (FormatInt i) ',' st) (',' :: tail) tail := by
  obtain ⟨ds, h1, h2, _, k, t, h4, h5, h6⟩ :=
    formatBits_spec (i.natAbs + 1) i.natAbs [] (by omega)
  rw [List.append_nil] at h1
  have ht := digitChar_toNat k h5
  have htail : ∀ c ∈ t, ∃ k, k < 10 ∧ c = digitChar k :=
    fun c hc => h2 c (by rw [h4]; exact List.mem_cons_of_mem _ hc)
  by_cases hneg : i < 0
  · have hf : FormatInt i = '-' :: digitChar k :: t := by simp [FormatInt, hneg, h1, h4]
    have hk : k ≠ 0 := fun h0 => by have := (h6 h0).2; omega
    rw [hf, List.cons_append, List.cons_append, scanRest_cons]
    have hb : stateBeginValue '-' st = Outcome.continue ⟨StepFn.stateNeg ['-'], st⟩ := by
      simp [stateBeginValue, isSpace]
    have hs : step ⟨StepFn.stateBeginValue, st⟩ '-' = stateBeginValue '-' st := rfl
    rw [hs, hb, resumeRest_continue, scanRest_cons, step_stateNeg_digit _ st _ (by omega) (by omega),
      resumeRest_continue, scan_state1_digits t _ st tail htail]
    simp
  · have hf : FormatInt i = digitChar k :: t := by simp [FormatInt, hneg, h1, h4]
    have hs : ∀ c, step ⟨StepFn.stateBeginValue, st⟩ c = stateBeginValue c st := fun _ => rfl
    rw [hf, List.cons_append, scanRest_cons, hs]
    by_cases hk : k = 0
    · subst hk
      rw [(h6 rfl).1]
      have hb : stateBeginValue (digitChar 0) st
          = Outcome.continue ⟨StepFn.state0 [digitChar 0], st⟩ := by
        have : digitChar 0 = '0' := by decide
        rw [this]
        simp [stateBeginValue, isSpace]
      rw [hb, resumeRest_continue, List.nil_append, scanRest_cons]
      congr 1
    · rw [stateBeginValue_digit _ st (by omega) (by omega), resumeRest_continue,
        scan_state1_digits t _ st tail htail]
      simp

/-- The scanner reads a string written by the encoder as that string. -/
theorem scan_encodeString (s : String) (ms : List (List Char × Value)) (k : List Char)
    (st : List ParseState) (tail : List Char) :
    scanRest ⟨StepFn.stateBeginValue, ParseState.parseObjectValue ms k :: st⟩
        (encodeString s ++ tail)
      = scanRest ⟨StepFn.stateEndValue,
          ParseState.parseObjectValue (ms ++ [(k, Value.string s.data)]) k :: st⟩ tail := by
  have hb : step ⟨StepFn.stateBeginValue, ParseState.parseObjectValue ms k :: st⟩ '"'
      = Outcome.continue
          ⟨StepFn.stateInString [] none, ParseState.parseObjectValue ms k :: st⟩ := by
    simp [step, stateBeginValue, isSpace]
  simp only [encodeString, List.cons_append, List.append_assoc, List.singleton_append]
  rw [scanRest_cons, hb, resumeRest_continue, scan_encodeString_body]
  simp [valueEnd, resumeRest]

/-- The scanner reads a number member followed by a comma. -/
theorem scan_number_member (i : Int) (ms : List (List Char × Value)) (k : List Char)
    (st : List ParseState) (tail : List Char) :
    scanRest ⟨StepFn.stateBeginValue, ParseState.parseObjectValue ms k :: st⟩
        (FormatInt i ++ ',' :: tail)
      = scanRest ⟨StepFn.stateBeginString,
          ParseState.parseObjectKey (ms ++ [(k, Value.number (FormatInt i))]) [] :: st⟩ tail := by
  rw [scan_FormatInt]
  simp [endNumber, valueEnd, stateEndValue, isSpace, resumeRest]

/-- The scanner reads the text written for a device as the value `deviceValue`. -/
theorem scan_encodeDevice (d : Device) (st : List ParseState) (tail : List Char)
    (hdepth : st.length + 1 ≤ maxNestingDepth) :
    scanRest ⟨StepFn.stateBeginValue, st⟩ (encodeDevice d ++ tail)
      = resumeRest (valueEnd (deviceValue d) st) tail tail := by
  have h1 : ∀ rest, scanRest ⟨StepFn.stateBeginValue, st⟩
      ('{' :: '"' :: 'i' :: 'd' :: '"' :: ':' :: rest)
      = scanRest ⟨StepFn.stateBeginValue, ParseState.parseObjectValue [] ['i', 'd'] :: st⟩ rest := by
    intro rest
    simp [scanRest_cons, endsBefore, resumeRest, step, stateBeginValue, stateBeginString, stateEndValue,
      pushParseState, isSpace, valueEnd, keyText, flushSurrogate, hdepth]
  have h2 : ∀ ms rest, scanRest ⟨StepFn.stateBeginString, ParseState.parseObjectKey ms [] :: st⟩
      ('"' :: 'm' :: 'a' :: 'c' :: '"' :: ':' :: rest)
      = scanRest ⟨StepFn.stateBeginValue,
          ParseState.parseObjectValue ms ['m', 'a', 'c'] :: st⟩ rest := by
    intro ms rest
    simp [scanRest_cons, endsBefore, resumeRest, step, stateBeginString, stateEndValue, isSpace, valueEnd, keyText,
      flushSurrogate]
  have h3 : ∀ ms k rest, scanRest ⟨StepFn.stateEndValue, ParseState.parseObjectValue ms k :: st⟩
      (',' :: '"' :: 'f' :: 'i' :: 'r' :: 'm' :: 'w' :: 'a' :: 'r' :: 'e' :: '"' :: ':' :: rest)
      = scanRest ⟨StepFn.stateBeginValue,
          ParseState.parseObjectValue ms ['f', 'i', 'r', 'm', 'w', 'a', 'r', 'e'] :: st⟩ rest := by
    intro ms k rest
    simp [scanRest_cons, endsBefore, resumeRest, step, stateBeginString, stateEndValue, isSpace, valueEnd, keyText,
      flushSurrogate]
  have h4 : ∀ ms k rest, scanRest ⟨StepFn.stateEndValue, ParseState.parseObjectValue ms k :: st⟩
      ('}' :: rest) = resumeRest (valueEnd (Value.object ms) st) rest rest := by
    intro ms k rest
    simp [scanRest_cons, endsBefore, step, stateEndValue, isSpace]
  have hshape : encodeDevice d ++ tail
      = '{' :: '"' :: 'i' :: 'd' :: '"' :: ':' :: (FormatInt d.ID ++ ',' ::
          ('"' :: 'm' :: 'a' :: 'c' :: '"' :: ':' :: (encodeString d.Mac ++
            (',' :: '"' :: 'f' :: 'i' :: 'r' :: 'm' :: 'w' :: 'a' :: 'r' :: 'e' :: '"' :: ':' ::
              (encodeString d.Firmware ++ '}' :: tail))))) := by
    simp [encodeDevice]
  rw [hshape, h1, scan_number_member, h2, scan_encodeString, h3, scan_encodeString, h4]
  rfl

theorem encodeDevice_head (d : Device) :
    ∃ x, encodeDevice d = '{' :: x := by
  exact ⟨_, by simp [encodeDevice]; rfl⟩

/-- The scanner reads the elements written for a non-empty slice and the closing
bracket as the array of their values. -/
theorem scan_encodeElems (ds : List Device) (hne : ds ≠ []) (es : List Value) :
    scanRest ⟨StepFn.stateBeginValue, [ParseState.parseArrayValue es]⟩ (encodeElems ds ++ [']'])
      = Except.ok (Value.array (es ++ ds.map deviceValue), []) := by
  induction ds generalizing es with
  | nil => exact absurd rfl hne
  | cons d rest ih =>
    have hdepth : [ParseState.parseArrayValue es].length + 1 ≤ maxNestingDepth := by
      simp only [List.length_singleton]; decide
    cases rest with
    | nil =>
      simp only [encodeElems]
      rw [scan_encodeDevice d _ _ hdepth]
      simp [valueEnd, resumeRest, scanRest_cons, endsBefore, step, stateEndValue, isSpace]
    | cons d2 rest2 =>
      simp only [encodeElems, List.append_assoc, List.cons_append]
      rw [scan_encodeDevice d _ _ hdepth]
      have hcomma : ∀ es1 x, scanRest ⟨StepFn.stateEndValue, [ParseState.parseArrayValue es1]⟩
          (',' :: x) = scanRest ⟨StepFn.stateBeginValue, [ParseState.parseArrayValue es1]⟩ x := by
        intro es1 x
        simp [scanRest_cons, endsBefore, resumeRest, step, stateEndValue, isSpace]
      simp only [valueEnd, resumeRest_continue]
      rw [hcomma, ih (by simp)]
      simp

/-- The decoder's scanner reads the text written by `Marshal` as the array of
the values of the devices. -/
theorem readValueRest_Marshal (ds : List Device) :
    readValueRest ('[' :: (encodeElems ds ++ [']']))
      = Except.ok (Value.array (ds.map deviceValue), []) := by
  have hopen : ∀ x, scanRest ⟨StepFn.stateBeginValue, []⟩ ('[' :: x)
      = scanRest ⟨StepFn.stateBeginValueOrEmpty, [ParseState.parseArrayValue []]⟩ x := by
    intro x
    have hd : 1 ≤ maxNestingDepth := by decide
    simp [scanRest_cons, endsBefore, resumeRest, step, stateBeginValue, isSpace, pushParseState, hd]
  unfold readValueRest
  rw [hopen]
  cases ds with
  | nil =>
    simp [encodeElems, scanRest_cons, endsBefore, resumeRest, step, stateEndValue, isSpace, valueEnd]
  | cons d rest =>
    have hfirst : ∀ x, scanRest ⟨StepFn.stateBeginValueOrEmpty, [ParseState.parseArrayValue []]⟩
        ('{' :: x) = scanRest ⟨StepFn.stateBeginValue, [ParseState.parseArrayValue []]⟩ ('{' :: x) := by
      intro x
      simp [scanRest_cons, endsBefore, step, isSpace]
    have hhead : ∃ x, encodeElems (d :: rest) ++ [']'] = '{' :: x := by
      obtain ⟨y, hy⟩ := encodeDevice_head d
      cases rest with
      | nil => exact ⟨y ++ [']'], by simp [encodeElems, hy]⟩
      | cons d2 r2 => exact ⟨y ++ ',' :: (encodeElems (d2 :: r2) ++ [']']), by simp [encodeElems, hy]⟩
    obtain ⟨x, hx⟩ := hhead
    rw [hx, hfirst, ← hx, scan_encodeElems (d :: rest) (by simp) []]
    simp

/-- The text written by `Marshal` is one JSON document: the array of the values of
the devices, with nothing after it. -/
theorem readDocument_Marshal (ds : List Device) :
    readDocument ('[' :: (encodeElems ds ++ [']']))
      = Except.ok (Value.array (ds.map deviceValue)) := by
  simp only [readDocument, readValueRest_Marshal, List.find?_nil]

/-- The decoder's `readValue` reads the text written by `Marshal` as the same
array. -/
theorem readValue_Marshal (ds : List Device) :
    readValue ('[' :: (encodeElems ds ++ [']'])) = Except.ok (Value.array (ds.map deviceValue)) := by
  have h := readValueRest_Marshal ds
  unfold readValueRest at h
  unfold readValue
  rw [scan_eq_scanRest, h]
  rfl

/-- Storing the value written for a device into a zero `Device` gives the device
back, provided its `ID` is an `int` (64 bit). -/
theorem unmarshal_deviceValue (d : Device)
    (hlo : -(2 : Int) ^ 63 ≤ d.ID) (hhi : d.ID < (2 : Int) ^ 63) :
    unmarshal (deviceValue d) zeroDevice = Except.ok d := by
  have h1 : lookupField ['i', 'd'] = some Field.ID := by decide
  have h2 : lookupField ['m', 'a', 'c'] = some Field.Mac := by decide
  have h3 : lookupField ['f', 'i', 'r', 'm', 'w', 'a', 'r', 'e'] = some Field.Firmware := by
    decide
  simp [unmarshal, deviceValue, storeMembers, storeMember, h1, h2, h3, storeID, storeString,
    ParseInt_FormatInt d.ID hlo hhi, zeroDevice]

end json

/-! ## What the decoder leaves alone, and its error texts -/

theorem storeID_Firmware (v : json.Value) (d : Device) :
    (json.storeID v d).1.Firmware = d.Firmware := by
  unfold json.storeID
  split
  · rfl
  · split <;> rfl
  · rfl

theorem storeString_Mac_Firmware (v : json.Value) (d : Device) :
    (json.storeString "mac" (fun d s => { d with Mac := s }) v d).1.Firmware = d.Firmware := by
  unfold json.storeString
  split <;> rfl

theorem storeMember_Firmware (kv : List Char × json.Value) (d : Device)
    (h : json.lookupField kv.1 ≠ some json.Field.Firmware) :
    (json.storeMember kv d).1.Firmware = d.Firmware := by
  unfold json.storeMember
  split
  · rfl
  · exact storeID_Firmware _ _
  · exact storeString_Mac_Firmware _ _
  · rename_i hf
    exact absurd hf h

/-- Members none of whose keys selects `firmware` leave `Firmware` alone. -/
theorem storeMembers_Firmware (ms : List (List Char × json.Value)) (acc : Device × Option json.DecodeError)
    (h : ∀ kv ∈ ms, json.lookupField kv.1 ≠ some json.Field.Firmware) :
    (json.storeMembers ms acc).1.Firmware = acc.1.Firmware := by
  induction ms generalizing acc with
  | nil => rfl
  | cons kv rest ih =>
    obtain ⟨d, saved⟩ := acc
    show (json.storeMembers rest _).1.Firmware = d.Firmware
    rw [ih _ (fun x hx => h x (List.mem_cons_of_mem _ hx))]
    exact storeMember_Firmware kv d (h kv (List.mem_cons_self _ _))

theorem unmarshal_object_Firmware (ms : List (List Char × json.Value)) (d device : Device)
    (h : ∀ kv ∈ ms, json.lookupField kv.1 ≠ some json.Field.Firmware)
    (hok : json.unmarshal (json.Value.object ms) d = Except.ok device) :
    device.Firmware = d.Firmware := by
  have hf := storeMembers_Firmware ms (d, none) h
  simp only [json.unmarshal] at hok
  split at hok
  · rename_i d1 heq
    rw [heq] at hf
    cases hok
    exact hf
  · cases hok

/-- Every decoding error has a non-empty text. -/
theorem DecodeError_Error_ne_empty (e : json.DecodeError) : e.Error ≠ "" := by
  intro h
  have hl : e.Error.length = 0 := by rw [h]; rfl
  cases e with
  | EOF => exact absurd hl (by decide)
  | ErrUnexpectedEOF => exact absurd hl (by decide)
  | SyntaxError c context =>
    simp only [json.DecodeError.Error, String.length_append] at hl
    have : "invalid character ".length = 18 := by decide
    omega
  | UnmarshalTypeError value struct field type =>
    simp only [json.DecodeError.Error] at hl
    have : "json: cannot unmarshal ".length = 23 := by decide
    split at hl <;> simp only [String.length_append] at hl <;> omega

/-! ## The response writer and the handlers, step by step -/

/-- Once the header is written, `WriteHeader` changes nothing. -/
theorem WriteHeader_of_wrote (w : ResponseWriter) (code : Nat) (h : w.wroteHeader = true) :
    w.WriteHeader code = w := by
  simp [ResponseWriter.WriteHeader, h]

/-- Once the header is written, `Write` leaves the status alone. -/
theorem Write_status (w : ResponseWriter) (b : String) (h : w.wroteHeader = true) :
    (w.Write b).status = w.status ∧ (w.Write b).wroteHeader = true := by
  simp [ResponseWriter.Write, h]

/-- Once the header is written, `http.Error` cannot change the status. -/
theorem Error_of_wrote (w : ResponseWriter) (msg : String) (code : Nat)
    (h : w.wroteHeader = true) :
    (http.Error w msg code).status = w.status ∧ (http.Error w msg code).wroteHeader = true := by
  simp [http.Error, ResponseWriter.Write, ResponseWriter.WriteHeader, h]

/-- On a writer that has sent nothing, `http.Error` sets the status and appends
the message and a newline to the body. -/
theorem Error_of_not_wrote (w : ResponseWriter) (msg : String) (code : Nat)
    (h : w.wroteHeader = false) :
    (http.Error w msg code).status = code ∧ (http.Error w msg code).wroteHeader = true
      ∧ (http.Error w msg code).body = w.body ++ (msg ++ "\n") := by
  simp [http.Error, ResponseWriter.Write, ResponseWriter.WriteHeader, h]

theorem NotFound_fresh :
    (http.NotFound ResponseWriter.fresh).wroteHeader = true ∧
      (http.NotFound ResponseWriter.fresh).status = 404 := by
  decide

/-- The test on line 126 is the negation of `parsesPositive`. -/
theorem afterPathCheck_eq (w : ResponseWriter) (r : Request) :
    (if ((strconv.Atoi (strings.TrimPrefix r.Path "/metrics/devices/")).2.isSome
        || decide ((strconv.Atoi (strings.TrimPrefix r.Path "/metrics/devices/")).1 < 1))
      then http.NotFound w else w) = afterPathCheck w r := by
  unfold afterPathCheck parsesPositive
  rcases strconv.Atoi (strings.TrimPrefix r.Path "/metrics/devices/") with ⟨id, err⟩
  cases err <;> simp
  by_cases h : id < 1
  · simp [h, Int.not_le.mpr h]
  · simp [h, Int.not_lt.mp h]

theorem afterPathCheck_bad (w : ResponseWriter) (r : Request) (h : parsesPositive r = false) :
    afterPathCheck w r = http.NotFound w := by
  simp [afterPathCheck, h]

/-- What `upgradeDevice` does when the body decodes, whatever the path was. -/
theorem upgradeDevice_ok (w : ResponseWriter) (r : Request) (s : State) (device : Device)
    (hbody : json.Decode r.Body = Except.ok device) :
    upgradeDevice w r s =
      (((afterPathCheck w r).WriteHeader http.StatusAccepted).Write "upgrading",
        { devices := setFirmware (pathID r) device.Firmware s.devices,
          metrics := s.metrics.incUpgrades "router" }) := by
  rw [← afterPathCheck_eq]
  unfold upgradeDevice pathID
  simp only [hbody]

/-- What `upgradeDevice` does when the body does not decode. -/
theorem upgradeDevice_error (w : ResponseWriter) (r : Request) (s : State) (e : json.DecodeError)
    (hbody : json.Decode r.Body = Except.error e) :
    upgradeDevice w r s = (http.Error (afterPathCheck w r) e.Error http.StatusBadRequest, s) := by
  rw [← afterPathCheck_eq]
  unfold upgradeDevice
  simp only [hbody]

theorem setFirmware_length (id : Int) (f : String) (ds : List Device) :
    (setFirmware id f ds).length = ds.length := by
  simp [setFirmware]

theorem setFirmware_getElem? (id : Int) (f : String) (ds : List Device) (i : Nat) :
    (setFirmware id f ds)[i]? =
      (ds[i]?).map (fun d => if d.ID = id then { d with Firmware := f } else d) := by
  simp [setFirmware]

theorem setFirmware_of_no_match (id : Int) (f : String) (ds : List Device)
    (h : ∀ d ∈ ds, d.ID ≠ id) : setFirmware id f ds = ds := by
  induction ds with
  | nil => rfl
  | cons d rest ih =>
    have hd : d.ID ≠ id := h d (List.mem_cons_self _ _)
    have hr : ∀ x ∈ rest, x.ID ≠ id := fun x hx => h x (List.mem_cons_of_mem _ hx)
    have ih1 := ih hr
    simp only [setFirmware] at ih1 ⊢
    simp [hd, ih1]

/-- The update loop keeps `ID` and `Mac` at every position. -/
theorem setFirmware_identity (id : Int) (f : String) (ds : List Device) :
    (setFirmware id f ds).map (fun d => (d.ID, d.Mac)) = ds.map (fun d => (d.ID, d.Mac)) := by
  induction ds with
  | nil => rfl
  | cons d rest ih =>
    simp only [setFirmware] at ih ⊢
    simp only [List.map_cons, ih]
    by_cases hd : d.ID = id <;> simp [hd]

theorem getDevices_state (w : ResponseWriter) (s : State) :
    (getDevices w s).2.devices = s.devices ∧
      (getDevices w s).2.metrics.upgrades = s.metrics.upgrades := by
  simp [getDevices, json.Marshal, Metrics.observeDuration]

theorem upgradeDevice_identity (w : ResponseWriter) (r : Request) (s : State) :
    (upgradeDevice w r s).2.devices.map (fun d => (d.ID, d.Mac))
      = s.devices.map (fun d => (d.ID, d.Mac)) := by
  cases hbody : json.Decode r.Body with
  | error e => rw [upgradeDevice_error _ r s e hbody]
  | ok device =>
    rw [upgradeDevice_ok _ r s device hbody]
    exact setFirmware_identity _ _ _

theorem ServeHTTP_identity (s : State) (r : Request) :
    (ServeHTTP s r).2.devices.map (fun d => (d.ID, d.Mac))
      = s.devices.map (fun d => (d.ID, d.Mac)) := by
  unfold ServeHTTP
  by_cases hget : r.Method = "GET"
  · simp only [hget, if_true]
    rw [(getDevices_state _ s).1]
  · by_cases hput : r.Method = "PUT"
    · simp only [hget, hput, if_true, if_false]
      exact upgradeDevice_identity _ r s
    · simp only [hget, hput, if_false]

theorem serveAll_identity (rs : List Request) (s : State) :
    (serveAll s rs).devices.map (fun d => (d.ID, d.Mac))
      = s.devices.map (fun d => (d.ID, d.Mac)) := by
  induction rs generalizing s with
  | nil => rfl
  | cons r rest ih =>
    show (serveAll (ServeHTTP s r).2 rest).devices.map _ = _
    rw [ih, ServeHTTP_identity]

/-- A `PUT` answered 202 has incremented the counter for `router` once. -/
theorem upgradeDevice_202_counts (r : Request) (s : State)
    (h : (upgradeDevice ResponseWriter.fresh r s).1.status = http.StatusAccepted) :
    (upgradeDevice ResponseWriter.fresh r s).2.metrics.upgrades "router"
      = s.metrics.upgrades "router" + 1 := by
  cases hbody : json.Decode r.Body with
  | error e =>
    exfalso
    rw [upgradeDevice_error _ r s e hbody] at h
    cases hp : parsesPositive r with
    | true =>
      simp only [afterPathCheck, hp, if_true] at h
      rw [(Error_of_not_wrote ResponseWriter.fresh _ _ rfl).1] at h
      exact absurd h (by decide)
    | false =>
      rw [afterPathCheck_bad _ r hp, (Error_of_wrote _ _ _ NotFound_fresh.1).1,
        NotFound_fresh.2] at h
      exact absurd h (by decide)
  | ok device =>
    rw [upgradeDevice_ok _ r s device hbody]
    simp [Metrics.incUpgrades]

/-- A request that is not a `PUT` leaves the upgrade counters alone. -/
theorem ServeHTTP_upgrades_of_not_put (s : State) (r : Request) (hput : r.Method ≠ "PUT") :
    (ServeHTTP s r).2.metrics.upgrades = s.metrics.upgrades := by
  unfold ServeHTTP
  by_cases hget : r.Method = "GET"
  · simp only [hget, if_true]
    exact (getDevices_state _ s).2
  · simp only [hget, hput, if_false]

/-! ## The claims -/

/-- C1. A `PUT` handled by `upgradeDevice` whose path suffix parses as a positive
integer `id` and whose body decodes to a device with firmware `f` is answered
202 and leaves the store with the same number of records; at every position the
record keeps its `ID` and `Mac`, a record whose `ID` is `id` gets `Firmware = f`,
and a record with another `ID` is unchanged in all three fields. -/
theorem upgradeDevice_sets_matching_firmware (r : Request) (s : State)
    (device : Device) (hpath : parsesPositive r = true)
    (hbody : json.Decode r.Body = Except.ok device) :
    (upgradeDevice ResponseWriter.fresh r s).1.status = 202 ∧
    (upgradeDevice ResponseWriter.fresh r s).2.devices.length = s.devices.length ∧
    ∀ (i : Nat) (d : Device), s.devices[i]? = some d →
      ∃ d1, (upgradeDevice ResponseWriter.fresh r s).2.devices[i]? = some d1 ∧
        d1.ID = d.ID ∧ d1.Mac = d.Mac ∧
        (d.ID = pathID r → d1.Firmware = device.Firmware) ∧ (d.ID ≠ pathID r → d1 = d) := by
  rw [upgradeDevice_ok _ r s device hbody]
  refine ⟨by simp [afterPathCheck, hpath]; rfl, setFirmware_length _ _ _, ?_⟩
  intro i d hd
  refine ⟨_, by simp only [setFirmware_getElem?, hd, Option.map_some']; rfl, ?_⟩
  by_cases h : d.ID = pathID r <;> simp [h]

/-- Witness for C1: the seed store and `PUT /metrics/devices/1` with firmware
`2.3.0` give the store `1, 5F-4G, 2.3.0` and `2, 5E-4G, 2.2.1`. -/
theorem upgradeDevice_sets_matching_firmware_witness :
    (upgradeDevice ResponseWriter.fresh putFirmware1 initState).2.devices
        = [ { ID := 1, Mac := "5F-4G", Firmware := "2.3.0" },
            { ID := 2, Mac := "5E-4G", Firmware := "2.2.1" } ] ∧
      ((upgradeDevice ResponseWriter.fresh putFirmware1 initState).1.status = 202 ∧
      (upgradeDevice ResponseWriter.fresh putFirmware1 initState).2.devices.length
        = initState.devices.length ∧
      ∀ (i : Nat) (d : Device), initState.devices[i]? = some d →
        ∃ d1, (upgradeDevice ResponseWriter.fresh putFirmware1 initState).2.devices[i]? = some d1 ∧
          d1.ID = d.ID ∧ d1.Mac = d.Mac ∧
          (d.ID = pathID putFirmware1 → d1.Firmware = "2.3.0") ∧
          (d.ID ≠ pathID putFirmware1 → d1 = d)) :=
  ⟨by decide,
    upgradeDevice_sets_matching_firmware putFirmware1 initState
      { ID := 0, Mac := "", Firmware := "2.3.0" } (by decide) (by rfl)⟩

/-- C2. A `PUT` handled by `upgradeDevice` whose path id is a positive integer
that is the `ID` of no device, and whose body decodes, leaves the store as it
was and is answered 202 with body `upgrading`. -/
theorem upgradeDevice_unknown_id_is_noop (r : Request) (s : State) (device : Device)
    (hpath : parsesPositive r = true) (hnone : ∀ d ∈ s.devices, d.ID ≠ pathID r)
    (hbody : json.Decode r.Body = Except.ok device) :
    (upgradeDevice ResponseWriter.fresh r s).2.devices = s.devices ∧
    (upgradeDevice ResponseWriter.fresh r s).1.status = 202 ∧
    (upgradeDevice ResponseWriter.fresh r s).1.body = "upgrading" := by
  rw [upgradeDevice_ok _ r s device hbody]
  refine ⟨setFirmware_of_no_match _ _ _ hnone, ?_, ?_⟩ <;>
    simp [afterPathCheck, hpath] <;> rfl

/-- Witness for C2: `PUT /metrics/devices/7` on the seed store. -/
theorem upgradeDevice_unknown_id_is_noop_witness :
    (upgradeDevice ResponseWriter.fresh putFirmware7 initState).2.devices = initState.devices ∧
    (upgradeDevice ResponseWriter.fresh putFirmware7 initState).1.status = 202 ∧
    (upgradeDevice ResponseWriter.fresh putFirmware7 initState).1.body = "upgrading" :=
  upgradeDevice_unknown_id_is_noop putFirmware7 initState
    { ID := 0, Mac := "", Firmware := "2.3.0" } (by decide) (by decide) (by rfl)

/-- C3. For every store whose ids are Go `int`s, `getDevices` answers 200 with
`Content-Type: application/json`, and the store is left as it was. The body is
a JSON array and nothing else: the scanner reads an array from it and no input
is left after the closing bracket, so the body is accepted as one JSON document
(as `json.Unmarshal` requires) and is what the decoder's `readValue` reads. The
array has as many elements as the store has devices, and the element at each
position decodes to the device stored at that position (same id, mac and
firmware, store order kept). -/
theorem getDevices_lists_the_store (s : State)
    (hint : ∀ d ∈ s.devices, -(2 : Int) ^ 63 ≤ d.ID ∧ d.ID < (2 : Int) ^ 63) :
    (getDevices ResponseWriter.fresh s).1.status = 200 ∧
    Header.Get (getDevices ResponseWriter.fresh s).1.sent "Content-Type"
      = some "application/json" ∧
    (∃ elems,
      json.readValueRest (getDevices ResponseWriter.fresh s).1.body.data
        = Except.ok (json.Value.array elems, []) ∧
      json.readDocument (getDevices ResponseWriter.fresh s).1.body.data
        = Except.ok (json.Value.array elems) ∧
      json.readValue (getDevices ResponseWriter.fresh s).1.body.data
        = Except.ok (json.Value.array elems) ∧
      elems.length = s.devices.length ∧
      ∀ (i : Nat) (d : Device), s.devices[i]? = some d →
        ∃ v, elems[i]? = some v ∧ json.unmarshal v json.zeroDevice = Except.ok d) ∧
    (getDevices ResponseWriter.fresh s).2.devices = s.devices := by
  refine ⟨by simp [getDevices, json.Marshal]; rfl, by simp [getDevices, json.Marshal]; rfl, ?_,
    (getDevices_state _ s).1⟩
  have hbody : (getDevices ResponseWriter.fresh s).1.body.data
      = '[' :: (json.encodeElems s.devices ++ [']']) := by
    simp [getDevices, json.Marshal, ResponseWriter.Write, ResponseWriter.WriteHeader,
      ResponseWriter.SetHeader, ResponseWriter.fresh]
  refine ⟨s.devices.map json.deviceValue, ?_, ?_, ?_, by simp, ?_⟩
  · rw [hbody, json.readValueRest_Marshal]
  · rw [hbody, json.readDocument_Marshal]
  · rw [hbody, json.readValue_Marshal]
  · intro i d hd
    refine ⟨json.deviceValue d, by simp [hd], ?_⟩
    have hmem : d ∈ s.devices := List.getElem?_mem hd
    exact json.unmarshal_deviceValue d (hint d hmem).1 (hint d hmem).2

/-- Witness for C3: the seed store; the body is the array of the two seed
devices in seed order. A text with anything but white space after the array,
such as `[]]`, is not a JSON document. -/
theorem getDevices_lists_the_store_witness :
    (getDevices ResponseWriter.fresh initState).1.body
      = "[\x7b\"id\":1,\"mac\":\"5F-4G\",\"firmware\":\"2.2.0\"\x7d,\x7b\"id\":2,\"mac\":\"5E-4G\",\"firmware\":\"2.2.1\"\x7d]" ∧
    json.readDocument ['[', ']', ']']
      = Except.error (json.DecodeError.SyntaxError ']' "after top-level value") ∧
    json.readDocument ['[', ']', ' ', '\n'] = Except.ok (json.Value.array []) ∧
    ((getDevices ResponseWriter.fresh initState).1.status = 200 ∧
    Header.Get (getDevices ResponseWriter.fresh initState).1.sent "Content-Type"
      = some "application/json" ∧
    (∃ elems,
      json.readValueRest (getDevices ResponseWriter.fresh initState).1.body.data
        = Except.ok (json.Value.array elems, []) ∧
      json.readDocument (getDevices ResponseWriter.fresh initState).1.body.data
        = Except.ok (json.Value.array elems) ∧
      json.readValue (getDevices ResponseWriter.fresh initState).1.body.data
        = Except.ok (json.Value.array elems) ∧
      elems.length = initState.devices.length ∧
      ∀ (i : Nat) (d : Device), initState.devices[i]? = some d →
        ∃ v, elems[i]? = some v ∧ json.unmarshal v json.zeroDevice = Except.ok d) ∧
    (getDevices ResponseWriter.fresh initState).2.devices = initState.devices) :=
  ⟨by decide, rfl, rfl, getDevices_lists_the_store initState (by decide)⟩

/-- C4. Serve any sequence of requests from any state. If every `PUT` of the
sequence is answered 202, the upgrade counter labelled `router` ends at its
initial value plus the number of `PUT` requests; the `GET` requests and the
requests with other methods that are interleaved add nothing. -/
theorem upgrades_counts_accepted_puts (rs : List Request) (s : State)
    (h : allPutsAccepted s rs = true) :
    (serveAll s rs).metrics.upgrades "router" = s.metrics.upgrades "router" + countPut rs := by
  induction rs generalizing s with
  | nil => rfl
  | cons r rest ih =>
    simp only [allPutsAccepted, Bool.and_eq_true, Bool.or_eq_true, bne_iff_ne, ne_eq,
      beq_iff_eq] at h
    show (serveAll (ServeHTTP s r).2 rest).metrics.upgrades "router" = _
    rw [ih _ h.2]
    by_cases hput : r.Method = "PUT"
    · have hst : (ServeHTTP s r).1.status = http.StatusAccepted := by
        rcases h.1 with h1 | h1
        · exact absurd hput h1
        · exact h1
      have hne : r.Method ≠ "GET" := by rw [hput]; decide
      have hserve : ServeHTTP s r = upgradeDevice ResponseWriter.fresh r s := by
        unfold ServeHTTP
        rw [if_neg hne, if_pos hput]
      rw [hserve] at hst ⊢
      rw [upgradeDevice_202_counts r s hst]
      simp [countPut, hput, List.countP_cons]
      omega
    · rw [ServeHTTP_upgrades_of_not_put s r hput]
      simp [countPut, hput, List.countP_cons]

/-- Witness for C4: a `GET`, two accepted `PUT`s, a `POST` and another `GET`,
served from the initial state, leave the counter at 2. -/
theorem upgrades_counts_accepted_puts_witness :
    (serveAll initState [getRequest, putFirmware1, postDevices, putFirmware7, getRequest]
      ).metrics.upgrades "router" = initState.metrics.upgrades "router" + 2 :=
  upgrades_counts_accepted_puts
    [getRequest, putFirmware1, postDevices, putFirmware7, getRequest] initState (by decide)

/-- C5. A `PUT` handled by `upgradeDevice` whose path suffix does not parse as a
positive integer is answered 404, whatever the body is: `http.NotFound` writes
the status line first, and the later `WriteHeader` calls of the function are
superfluous. -/
theorem upgradeDevice_bad_path_is_404 (r : Request) (s : State)
    (hpath : parsesPositive r = false) :
    (upgradeDevice ResponseWriter.fresh r s).1.status = 404 := by
  cases hbody : json.Decode r.Body with
  | error e =>
    rw [upgradeDevice_error _ r s e hbody, afterPathCheck_bad _ r hpath]
    rw [(Error_of_wrote _ _ _ NotFound_fresh.1).1]
    exact NotFound_fresh.2
  | ok device =>
    rw [upgradeDevice_ok _ r s device hbody, afterPathCheck_bad _ r hpath]
    rw [WriteHeader_of_wrote _ _ NotFound_fresh.1, (Write_status _ _ NotFound_fresh.1).1]
    exact NotFound_fresh.2

/-- Witness for C5: the suffixes `abc` (with a body that decodes and with one
that does not), the empty suffix, `0` and `-3`. -/
theorem upgradeDevice_bad_path_is_404_witness :
    (upgradeDevice ResponseWriter.fresh putBadPath initState).1.status = 404 ∧
    (upgradeDevice ResponseWriter.fresh putBadPathBadBody initState).1.status = 404 ∧
    (upgradeDevice ResponseWriter.fresh
      { Method := "PUT", Path := "/metrics/devices/", Body := "" } initState).1.status = 404 ∧
    (upgradeDevice ResponseWriter.fresh
      { Method := "PUT", Path := "/metrics/devices/0", Body := "\x7b\x7d" } initState).1.status = 404 ∧
    (upgradeDevice ResponseWriter.fresh
      { Method := "PUT", Path := "/metrics/devices/-3", Body := "[" } initState).1.status = 404 :=
  ⟨upgradeDevice_bad_path_is_404 _ _ (by decide), upgradeDevice_bad_path_is_404 _ _ (by decide),
    upgradeDevice_bad_path_is_404 _ _ (by decide), upgradeDevice_bad_path_is_404 _ _ (by decide),
    upgradeDevice_bad_path_is_404 _ _ (by decide)⟩

/-- C6 as stated fails: the body `not-json` does not decode, yet with the path
suffix `abc` the status is 404, not 400. -/
theorem upgradeDevice_bad_body_not_always_400 :
    (∃ e, json.Decode putBadPathBadBody.Body = Except.error e) ∧
      (upgradeDevice ResponseWriter.fresh putBadPathBadBody initState).1.status = 404 ∧
      (upgradeDevice ResponseWriter.fresh putBadPathBadBody initState).1.status ≠ 400 :=
  ⟨⟨_, rfl⟩, by decide, by decide⟩

/-- C6, amended. A `PUT` handled by `upgradeDevice` whose path suffix parses as a
positive integer and whose body fails to decode is answered 400, and the body
of the response is the decoding error's text, which is not empty, followed by a
newline. -/
theorem upgradeDevice_bad_body_is_400 (r : Request) (s : State) (e : json.DecodeError)
    (hpath : parsesPositive r = true) (hbody : json.Decode r.Body = Except.error e) :
    (upgradeDevice ResponseWriter.fresh r s).1.status = 400 ∧
    (upgradeDevice ResponseWriter.fresh r s).1.body = e.Error ++ "\n" ∧
    e.Error ≠ "" := by
  rw [upgradeDevice_error _ r s e hbody]
  have h := Error_of_not_wrote ResponseWriter.fresh e.Error http.StatusBadRequest rfl
  simp only [afterPathCheck, hpath, if_true]
  refine ⟨h.1, ?_, DecodeError_Error_ne_empty e⟩
  rw [h.2.2]
  show "" ++ (e.Error ++ "\n") = e.Error ++ "\n"
  simp

/-- Witness for C6 (amended): `PUT /metrics/devices/1` with body `not-json`. -/
theorem upgradeDevice_bad_body_is_400_witness :
    (upgradeDevice ResponseWriter.fresh putBadBody initState).1.status = 400 ∧
    (upgradeDevice ResponseWriter.fresh putBadBody initState).1.body =
      (json.DecodeError.SyntaxError 'o' "in literal null (expecting 'u')").Error ++ "\n" ∧
    (json.DecodeError.SyntaxError 'o' "in literal null (expecting 'u')").Error ≠ "" :=
  upgradeDevice_bad_body_is_400 putBadBody initState
    (json.DecodeError.SyntaxError 'o' "in literal null (expecting 'u')") (by decide) (by rfl)

/-- C7 as stated fails in the body: `http.Error` prints the message with a
newline after it, so the body of the 405 response is not the bare message. -/
theorem ServeHTTP_405_body_has_newline :
    postDevices.Method ≠ "GET" ∧ postDevices.Method ≠ "PUT" ∧
      (ServeHTTP initState postDevices).1.body ≠ "method not allowed" ∧
      (ServeHTTP initState postDevices).1.body = "method not allowed\n" := by
  decide

/-- C7, amended. A request whose method is neither `GET` nor `PUT` is answered
405 with the header `Allow: PUT` and the body `method not allowed` followed by a
newline; the state (store and instruments) is exactly what it was, as neither
`getDevices` nor `upgradeDevice` runs. -/
theorem ServeHTTP_other_method_is_405 (s : State) (r : Request)
    (hget : r.Method ≠ "GET") (hput : r.Method ≠ "PUT") :
    (ServeHTTP s r).1.status = 405 ∧
    Header.Get (ServeHTTP s r).1.sent "Allow" = some "PUT" ∧
    (ServeHTTP s r).1.body = "method not allowed\n" ∧
    (ServeHTTP s r).2 = s := by
  simp only [ServeHTTP, hget, hput, if_false]
  exact ⟨by decide, by decide, by decide, trivial⟩

/-- Witness for C7 (amended): `POST /metrics/devices`. -/
theorem ServeHTTP_other_method_is_405_witness :
    (ServeHTTP initState postDevices).1.status = 405 ∧
    Header.Get (ServeHTTP initState postDevices).1.sent "Allow" = some "PUT" ∧
    (ServeHTTP initState postDevices).1.body = "method not allowed\n" ∧
    (ServeHTTP initState postDevices).2 = initState :=
  ServeHTTP_other_method_is_405 initState postDevices (by decide) (by decide)

/-- C8 fails on the code: `PUT /metrics/devices/abc` with a body that decodes is
answered 404, an error status, and yet the upgrade counter for `router` has gone
from 0 to 1, because `upgradeDevice` does not return after `http.NotFound`. -/
theorem ServeHTTP_404_still_counts_upgrade :
    (ServeHTTP initState putBadPath).1.status = 404 ∧
      isErrorStatus (ServeHTTP initState putBadPath).1.status = true ∧
      initState.metrics.upgrades "router" = 0 ∧
      (ServeHTTP initState putBadPath).2.metrics.upgrades "router" = 1 := by
  decide

/-- C9. In every state reached from the seed store by serving any finite
sequence of requests (any method, path and body), the store has as many devices
as the seed and at every position the `ID` and `Mac` of the seed, in the seed's
order; so the ids stay positive and pairwise different, and only `Firmware` can
differ from the seed. -/
theorem reachable_store_keeps_seed_identities (rs : List Request) :
    (serveAll initState rs).devices.length = seedDevices.length ∧
    (serveAll initState rs).devices.map (fun d => (d.ID, d.Mac))
      = seedDevices.map (fun d => (d.ID, d.Mac)) ∧
    (∀ (i : Nat) (d : Device), (serveAll initState rs).devices[i]? = some d →
      ∃ d0, seedDevices[i]? = some d0 ∧ d.ID = d0.ID ∧ d.Mac = d0.Mac) ∧
    (∀ d ∈ (serveAll initState rs).devices, 1 ≤ d.ID) ∧
    ((serveAll initState rs).devices.map (fun d => d.ID)).Nodup := by
  have h := serveAll_identity rs initState
  have hlen : (serveAll initState rs).devices.length = seedDevices.length := by
    have := congrArg List.length h
    simpa using this
  have hid : (serveAll initState rs).devices.map (fun d => d.ID) = [1, 2] := by
    have := congrArg (List.map Prod.fst) h
    simpa [List.map_map, Function.comp_def] using this
  refine ⟨hlen, h, ?_, ?_, ?_⟩
  · intro i d hd
    have hi := congrArg (fun l => l[i]?) h
    simp only [List.getElem?_map, hd, Option.map_some'] at hi
    cases h0 : initState.devices[i]? with
    | none => rw [h0] at hi; simp at hi
    | some d0 =>
      rw [h0] at hi
      simp only [Option.map_some', Option.some.injEq, Prod.mk.injEq] at hi
      exact ⟨d0, h0, hi.1, hi.2⟩
  · intro d hd
    have hm : d.ID ∈ (serveAll initState rs).devices.map (fun d => d.ID) :=
      List.mem_map_of_mem _ hd
    rw [hid] at hm
    simp only [List.mem_cons, List.mem_singleton, List.not_mem_nil, or_false] at hm
    omega
  · rw [hid]; decide

/-- C10 as stated fails: the body of `putStringID` is a well-formed JSON object
with the single member `id`, so it has no `firmware` member, and the path id 1
is the `ID` of a seed device; yet the request is answered 400 and the device
keeps its firmware `2.2.0`. -/
theorem upgradeDevice_object_without_firmware_rejected :
    json.readValue putStringID.Body.data
        = Except.ok (json.Value.object [(['i', 'd'], json.Value.string ['x'])]) ∧
      parsesPositive putStringID = true ∧ pathID putStringID = 1 ∧
      (upgradeDevice ResponseWriter.fresh putStringID initState).1.status = 400 ∧
      (upgradeDevice ResponseWriter.fresh putStringID initState).2.devices = seedDevices :=
  ⟨rfl, by decide, by decide, by decide, by decide⟩

/-- C10, amended. A `PUT` handled by `upgradeDevice` whose path suffix parses as a
positive integer `id` and whose body is a JSON object that decodes without error
and has no key selecting the field `firmware` (no key equal to `firmware` up to
letter case) is answered 202, and every device whose `ID` is `id` ends with the
empty string as `Firmware`. -/
theorem upgradeDevice_without_firmware_key_clears (r : Request) (s : State)
    (ms : List (List Char × json.Value)) (device : Device)
    (hpath : parsesPositive r = true)
    (hobj : json.readValue r.Body.data = Except.ok (json.Value.object ms))
    (hkeys : ∀ kv ∈ ms, json.lookupField kv.1 ≠ some json.Field.Firmware)
    (hbody : json.Decode r.Body = Except.ok device) :
    (upgradeDevice ResponseWriter.fresh r s).1.status = 202 ∧
    ∀ (i : Nat) (d : Device), s.devices[i]? = some d → d.ID = pathID r →
      ∃ d1, (upgradeDevice ResponseWriter.fresh r s).2.devices[i]? = some d1 ∧
        d1.Firmware = "" := by
  have hfw : device.Firmware = "" := by
    have hd := hbody
    simp only [json.Decode, hobj] at hd
    exact unmarshal_object_Firmware ms json.zeroDevice device hkeys hd
  rw [upgradeDevice_ok _ r s device hbody]
  refine ⟨by simp [afterPathCheck, hpath]; rfl, ?_⟩
  intro i d hd hid
  refine ⟨_, by simp only [setFirmware_getElem?, hd, Option.map_some']; rfl, ?_⟩
  simp [hid, hfw]

/-- Witness for C10 (amended): `PUT /metrics/devices/1` with body `\x7b\x7d` on the
seed store. -/
theorem upgradeDevice_without_firmware_key_clears_witness :
    (upgradeDevice ResponseWriter.fresh putEmptyObject initState).2.devices
        = [ { ID := 1, Mac := "5F-4G", Firmware := "" },
            { ID := 2, Mac := "5E-4G", Firmware := "2.2.1" } ] ∧
      ((upgradeDevice ResponseWriter.fresh putEmptyObject initState).1.status = 202 ∧
      ∀ (i : Nat) (d : Device), initState.devices[i]? = some d → d.ID = pathID putEmptyObject →
        ∃ d1, (upgradeDevice ResponseWriter.fresh putEmptyObject initState).2.devices[i]?
            = some d1 ∧ d1.Firmware = "") :=
  ⟨by decide,
    upgradeDevice_without_firmware_key_clears putEmptyObject initState [] json.zeroDevice
      (by decide) rfl (by decide) (by rfl)⟩

end DeviceService
